import Mathlib

/-!
# Verification of the mexc-binance cross-venue arbitrage engine

Shallow embedding of the core of the repository (the `TradeExecutor` of
`src/unnamed/part_000` and the `ArbitrageDetector` of
`src/src/arbitrage-detector.ts`) over exact rational arithmetic.

JavaScript numbers are modelled as `ℚ`; the `Infinity` timeout sentinel is
modelled as `Option ℚ` with `none` standing for an unbounded deadline
(`now >= Infinity` is always false in the source, and the `none` branch of the
embedded comparison is likewise always "not reached").  `randomUUID`
identifiers are modelled as `ℕ` parameters supplied by the caller.  The
JavaScript `Map` of open position pairs is modelled as a `List PositionPair`
keyed by the pair `id` field (JS `Map` keys are unique; insertion appends at
the end exactly as `Map.set` of a fresh key does).  Remote venue calls
(`createMarketOrder`, `setLeverage`, `getBalance`) are modelled by oracles
carrying the outcome of each call.
-/

/-- The two venues (`ExchangeName` of `src/src/types` as shown in the repo). -/
inductive Exchange where
  | binance
  | mexc
deriving DecidableEq, Repr

/-- `PositionSide` of the source. -/
inductive PositionSide where
  | LONG
  | SHORT
deriving DecidableEq, Repr

/-- `PositionStatus` of the source. -/
inductive PositionStatus where
  | OPEN
  | CLOSED
  | TIMEOUT_CLOSED
  | CLOSED_BY_CONVERGENCE
deriving DecidableEq, Repr

/-- `CloseReason` of the source. -/
inductive CloseReason where
  | CONVERGENCE
  | TIMEOUT
  | MANUAL
  | FORCE_SHUTDOWN
deriving DecidableEq, Repr

/-- The skip reasons actually passed to `recordSkippedOpportunity` by
`openPositionPair` / `handleNewOpportunity`. -/
inductive SkipReason where
  | RATE_LIMIT_PENDING
  | INSUFFICIENT_BALANCE
  | POSITION_SIZE_TOO_LARGE
  | MAX_POSITIONS_REACHED
  | ORDER_CREATION_FAILED
  | NO_FREE_SLOTS
deriving DecidableEq, Repr

/-- The `operation` field of a `TradingError` record. -/
inductive ErrOp where
  | SET_LEVERAGE
  | OPEN_LONG
  | OPEN_SHORT
  | CLOSE_LONG
  | CLOSE_SHORT
  | GET_BALANCE
deriving DecidableEq, Repr

/-- The relevant fields of the `Config` object (`config.trading.*`,
`config.fees.*`, `config.slippage.percent`, `config.arbitrage.minSpreadPercent`). -/
structure Config where
  testMode : Bool
  enabled : Bool
  positionSizeUSD : ℚ
  maxOpenPositions : ℕ
  positionTimeoutSeconds : ℚ
  leverage : ℚ
  priceConvergencePercent : ℚ
  closeOnSpreadConvergence : Bool
  binanceTaker : ℚ
  mexcTaker : ℚ
  slippagePercent : ℚ
  minSpreadPercent : ℚ
  testBalanceUSD : ℚ
deriving DecidableEq, Repr

/-- `TickerPrice` of the source (the fields the detector reads). -/
structure TickerPrice where
  symbol : String
  bid : ℚ
  ask : ℚ
  bidQty : Option ℚ
  askQty : Option ℚ
  exchange : Exchange
deriving DecidableEq, Repr

/-- `ArbitrageOpportunity` of the source. -/
structure Opportunity where
  symbol : String
  buyExchange : Exchange
  sellExchange : Exchange
  buyPrice : ℚ
  sellPrice : ℚ
  buyQtyAvailable : Option ℚ
  sellQtyAvailable : Option ℚ
  spreadPercent : ℚ
  profitPercent : ℚ
deriving DecidableEq, Repr

/-- One leg of a pair (`Position` of the source). -/
structure Position where
  id : ℕ
  symbol : String
  exchange : Exchange
  side : PositionSide
  entryPrice : ℚ
  exitPrice : Option ℚ
  quantity : ℚ
  sizeUSD : ℚ
  leverage : ℚ
  status : PositionStatus
  openTime : ℚ
  closeTime : Option ℚ
  pnl : Option ℚ
  pnlPercent : Option ℚ
deriving DecidableEq, Repr

/-- `PositionPair` of the source (`priceHistory`, a reporting-only rolling log,
is not modelled). `timeoutAt = none` stands for the `Infinity` sentinel. -/
structure PositionPair where
  id : ℕ
  symbol : String
  longPosition : Position
  shortPosition : Position
  openSpread : ℚ
  currentSpread : Option ℚ
  expectedProfit : ℚ
  actualProfit : Option ℚ
  status : PositionStatus
  openTime : ℚ
  closeTime : Option ℚ
  timeoutAt : Option ℚ
  closeReason : Option CloseReason
  currentLongPrice : Option ℚ
  currentShortPrice : Option ℚ
  originalBinancePrice : ℚ
  originalMexcPrice : ℚ
  priceDiffPercent : Option ℚ
deriving DecidableEq, Repr

/-- `TradingError` audit record (message/context text not modelled). -/
structure TradingError where
  timestamp : ℚ
  symbol : String
  operation : ErrOp
  exchange : Exchange
deriving DecidableEq, Repr

/-- The `testStats` counters of the executor. -/
structure TestStats where
  totalTrades : ℕ
  profitableTrades : ℕ
  losingTrades : ℕ
  totalProfit : ℚ
  totalLoss : ℚ
deriving DecidableEq, Repr

/-- The mutable state of the `TradeExecutor`. -/
structure ExecState where
  openPositions : List PositionPair
  closedPositions : List PositionPair
  tradingErrors : List TradingError
  currentBalance : ℚ
  initialBalance : ℚ
  lastOrderTime : ℚ
  pendingOrders : ℕ
  testStats : TestStats
deriving DecidableEq, Repr

/-- State of a freshly constructed `TradeExecutor`. -/
def initialState (cfg : Config) : ExecState :=
  { openPositions := []
    closedPositions := []
    tradingErrors := []
    currentBalance := cfg.testBalanceUSD
    initialBalance := cfg.testBalanceUSD
    lastOrderTime := 0
    pendingOrders := 0
    testStats := ⟨0, 0, 0, 0, 0⟩ }

/-- Observable actions of one executor call: skip-handler invocations and
remote order placements (the detector-level events are added later). -/
inductive Event where
  | skip (r : SkipReason)
  | order (o : ErrOp)
  | propagate (buyPrice sellPrice : ℚ)
  | opportunity (opp : Opportunity)
deriving DecidableEq, Repr

/-- Result of the execution price simulator. -/
structure ExecPrice where
  avgPrice : ℚ
  slippageCost : ℚ
  fullFill : Bool
deriving DecidableEq, Repr

/-- `calculateExecutionPrice` of `src/unnamed/part_000` lines 135-179: the
Execution Price Simulator.  When the venue sent no visible quantity, a default
depth of $10,000 at the quoted price is assumed.  A depth covering the
requested notional fills fully at the quoted price; otherwise the visible part
fills at the quoted price and the remainder at
`basePrice * (1 + slippagePercent / 100)`, and the notional-weighted average
is returned together with the USD-valued coin shortfall. -/
def calculateExecutionPrice (cfg : Config) (requestedUsd basePrice : ℚ)
    (availableQty : Option ℚ) : ExecPrice :=
  let realQty := match availableQty with
    | some q => q
    | none => 10000 / basePrice
  let realDepthUsd := realQty * basePrice
  if requestedUsd ≤ realDepthUsd then
    { avgPrice := basePrice, slippageCost := 0, fullFill := true }
  else
    let filledReal := realDepthUsd
    let filledSlippage := requestedUsd - realDepthUsd
    let penaltyPrice := basePrice * (1 + cfg.slippagePercent / 100)
    let avgPrice := (filledReal * basePrice + filledSlippage * penaltyPrice) / requestedUsd
    let idealCost := requestedUsd / basePrice
    let realCost := requestedUsd / avgPrice
    { avgPrice := avgPrice
      slippageCost := (idealCost - realCost) * basePrice
      fullFill := false }

/-! ## The position ledger (the JS `Map` of open pairs, keyed by pair id) -/

/-- `Map.get(pid)`: the first (unique) pair with the given id. -/
def findPair : List PositionPair → ℕ → Option PositionPair
  | [], _ => none
  | p :: l, pid => if p.id = pid then some p else findPair l pid

/-- In-place mutation of the entry with the given id (JS object mutation via
the map entry's reference). -/
def replacePair : List PositionPair → ℕ → PositionPair → List PositionPair
  | [], _, _ => []
  | p :: l, pid, p' => (if p.id = pid then p' else p) :: replacePair l pid p'

/-- `Map.delete(pid)` (keys are unique, so removing every entry with the id is
the same as removing the one entry). -/
def erasePair : List PositionPair → ℕ → List PositionPair
  | [], _ => []
  | p :: l, pid => if p.id = pid then erasePair l pid else p :: erasePair l pid

/-- Append a trading error to the audit list (`recordTradingError`). -/
def addError (s : ExecState) (e : TradingError) : ExecState :=
  { s with tradingErrors := s.tradingErrors ++ [e] }

/-! ## Close path (`closePositionPair`, part_000 lines 557-758)

The source's close sequence is split at its suspension points: `closeMark` is
the synchronous prefix (PnL computation and mutation of the pair's fields,
lines 566-595) executed before the first remote call; `closeLegs` covers the
two remote reduce-only leg closes (live mode only; failures are recorded and
do not block, lines 597-680); `closeFinish` removes the pair from the open
map, appends it to the closed history, updates balance and statistics
(lines 682-751). -/

/-- Blended PnL percent of a pair closed at the given prices: leg percentages
averaged, minus the doubled round-trip taker fees (lines 571-577). -/
def pairPnlPercent (cfg : Config) (pair : PositionPair) (buy sell : ℚ) : ℚ :=
  let longPnlPercent := (buy - pair.longPosition.entryPrice) / pair.longPosition.entryPrice * 100
  let shortPnlPercent := (pair.shortPosition.entryPrice - sell) / pair.shortPosition.entryPrice * 100
  (longPnlPercent + shortPnlPercent) / 2 - (cfg.binanceTaker + cfg.mexcTaker) * 2

/-- Dollar PnL: the blended percent applied to twice the per-leg notional
(line 581). -/
def pairPnlUSD (cfg : Config) (pair : PositionPair) (buy sell : ℚ) : ℚ :=
  pairPnlPercent cfg pair buy sell / 100 * (cfg.positionSizeUSD * 2)

/-- The fields `closePositionPair` writes into the pair being closed
(lines 583-595): status (TIMEOUT gives `TIMEOUT_CLOSED`, everything else
`CLOSED`), close time/reason, actual profit, per-leg exit prices and PnL. -/
def markPair (cfg : Config) (now : ℚ) (reason : CloseReason) (buy sell : ℚ)
    (pair : PositionPair) : PositionPair :=
  let longPnlPercent := (buy - pair.longPosition.entryPrice) / pair.longPosition.entryPrice * 100
  let shortPnlPercent := (pair.shortPosition.entryPrice - sell) / pair.shortPosition.entryPrice * 100
  { pair with
    status := if reason = CloseReason.TIMEOUT then PositionStatus.TIMEOUT_CLOSED
              else PositionStatus.CLOSED
    closeTime := some now
    closeReason := some reason
    actualProfit := some (pairPnlPercent cfg pair buy sell)
    longPosition := { pair.longPosition with
      exitPrice := some buy
      pnl := some (longPnlPercent / 100 * cfg.positionSizeUSD)
      pnlPercent := some longPnlPercent }
    shortPosition := { pair.shortPosition with
      exitPrice := some sell
      pnl := some (shortPnlPercent / 100 * cfg.positionSizeUSD)
      pnlPercent := some shortPnlPercent } }

/-- Synchronous close prefix (the part of `closePositionPair` executed before
its first remote call, lines 566-595): compute the PnL and mutate the pair's
fields in place. -/
def closeMark (cfg : Config) (now : ℚ) (pid : ℕ) (reason : CloseReason) (buy sell : ℚ)
    (s : ExecState) : ExecState :=
  match findPair s.openPositions pid with
  | none => s
  | some pair =>
    { s with openPositions := replacePair s.openPositions pid (markPair cfg now reason buy sell pair) }

/-- Outcomes of the remote calls a close sequence performs. -/
structure CloseOracle where
  closeLongOk : Bool
  closeShortOk : Bool
  binBalance : Option ℚ
  mexcBalance : Option ℚ
deriving DecidableEq, Repr

/-- Live-mode reduce-only leg closes: a failed leg is logged as a
`TradingError` and does not block (lines 597-680); no-op in test mode. -/
def closeLegs (cfg : Config) (co : CloseOracle) (now : ℚ) (pid : ℕ) (s : ExecState) : ExecState :=
  if cfg.testMode then s
  else
    match findPair s.openPositions pid with
    | none => s
    | some pair =>
      let s1 := if co.closeLongOk then s
        else addError s ⟨now, pair.symbol, ErrOp.CLOSE_LONG, pair.longPosition.exchange⟩
      if co.closeShortOk then s1
      else addError s1 ⟨now, pair.symbol, ErrOp.CLOSE_SHORT, pair.shortPosition.exchange⟩

/-- Live-mode balance reconciliation after an open or close: fetch both venue
balances (a failed fetch records a `GET_BALANCE` error and counts as 0), then
take the minimum of the two when both are positive, else whichever is
positive, else leave the balance unchanged (lines 688-741 and 440-493). -/
def reconcileBalance (now : ℚ) (symbol : String) (binBalance mexcBalance : Option ℚ)
    (s : ExecState) : ExecState :=
  let bB := binBalance.getD 0
  let s1 := match binBalance with
    | some _ => s
    | none => addError s ⟨now, symbol, ErrOp.GET_BALANCE, Exchange.binance⟩
  let bM := mexcBalance.getD 0
  let s2 := match mexcBalance with
    | some _ => s1
    | none => addError s1 ⟨now, symbol, ErrOp.GET_BALANCE, Exchange.mexc⟩
  if 0 < bB ∧ 0 < bM then { s2 with currentBalance := min bB bM }
  else if 0 < bB then { s2 with currentBalance := bB }
  else if 0 < bM then { s2 with currentBalance := bM }
  else s2

/-- Close epilogue: move the pair from the open map to the closed history,
credit the balance (test mode) or reconcile it from the venues (live mode),
and update the win/loss statistics (lines 682-751). -/
def closeFinish (cfg : Config) (co : CloseOracle) (now : ℚ) (pid : ℕ) (s : ExecState) : ExecState :=
  match findPair s.openPositions pid with
  | none => s
  | some pair =>
    let totalPnlUSD := pair.actualProfit.getD 0 / 100 * (cfg.positionSizeUSD * 2)
    let s1 := { s with
      openPositions := erasePair s.openPositions pid
      closedPositions := s.closedPositions ++ [pair] }
    let s2 := if cfg.testMode then
        { s1 with currentBalance := s1.currentBalance + (cfg.positionSizeUSD * 2 + totalPnlUSD) }
      else reconcileBalance now pair.symbol co.binBalance co.mexcBalance s1
    let st := s2.testStats
    let st' := if 0 < totalPnlUSD then
        { st with totalTrades := st.totalTrades + 1
                  profitableTrades := st.profitableTrades + 1
                  totalProfit := st.totalProfit + totalPnlUSD }
      else
        { st with totalTrades := st.totalTrades + 1
                  losingTrades := st.losingTrades + 1
                  totalLoss := st.totalLoss + |totalPnlUSD| }
    { s2 with testStats := st' }

/-- `closePositionPair` (part_000 lines 557-758): no-op when the pair id is no
longer in the open map, otherwise mark, close the legs remotely (live mode),
and finish. -/
def closePositionPair (cfg : Config) (co : CloseOracle) (now : ℚ) (pid : ℕ)
    (reason : CloseReason) (buy sell : ℚ) (s : ExecState) : ExecState :=
  match findPair s.openPositions pid with
  | none => s
  | some _ =>
    closeFinish cfg co now pid (closeLegs cfg co now pid (closeMark cfg now pid reason buy sell s))

/-! ## Spread propagation and convergence (`updatePositionSpread`, lines 506-555) -/

/-- `checkPriceConvergence` (lines 552-555): the cross-venue divergence of the
two current prices is at or below the configured convergence threshold. -/
def checkPriceConvergence (cfg : Config) (price1 price2 : ℚ) : Bool :=
  decide (|price1 - price2| / min price1 price2 * 100 ≤ cfg.priceConvergencePercent)

/-- The live refresh `updatePositionSpread` writes into an open pair of the
symbol (lines 509-530): current spread, current per-leg prices (the long leg's
venue decides which price is which), live divergence, and the estimated PnL
net of the hard-coded 0.12% fee allowance. -/
def refreshPair (pair : PositionPair) (buy sell : ℚ) : PositionPair :=
  let cLong := if pair.longPosition.exchange = Exchange.binance then buy else sell
  let cShort := if pair.longPosition.exchange = Exchange.binance then sell else buy
  let longPnl := (cLong - pair.longPosition.entryPrice) / pair.longPosition.entryPrice * 100
  let shortPnl := (pair.shortPosition.entryPrice - cShort) / pair.shortPosition.entryPrice * 100
  { pair with
    currentSpread := some ((sell - buy) / buy * 100)
    currentLongPrice := some cLong
    currentShortPrice := some cShort
    priceDiffPercent := some (|buy - sell| / min buy sell * 100)
    actualProfit := some ((longPnl + shortPnl) / 2 - 12/100) }

/-- One iteration of the `updatePositionSpread` loop for the pair with the
given id: refresh current spread, current per-leg prices, divergence and
estimated PnL, then close on convergence when that feature is enabled
(lines 507-546). -/
def updateStep (cfg : Config) (co : CloseOracle) (now : ℚ) (symbol : String) (buy sell : ℚ)
    (s : ExecState) (pid : ℕ) : ExecState :=
  match findPair s.openPositions pid with
  | none => s
  | some pair =>
    if pair.symbol = symbol ∧ pair.status = PositionStatus.OPEN then
      let s' := { s with openPositions := replacePair s.openPositions pid (refreshPair pair buy sell) }
      if cfg.closeOnSpreadConvergence && checkPriceConvergence cfg buy sell then
        closePositionPair cfg co now pid CloseReason.CONVERGENCE buy sell s'
      else s'
    else s

/-- `updatePositionSpread` (lines 506-547): iterate over a snapshot of the
open map's keys, refreshing every open pair of the symbol and closing it with
reason `CONVERGENCE` when the current prices have converged. -/
def updatePositionSpread (cfg : Config) (co : CloseOracle) (now : ℚ) (symbol : String)
    (buy sell : ℚ) (s : ExecState) : ExecState :=
  (s.openPositions.map (fun p => p.id)).foldl (updateStep cfg co now symbol buy sell) s

/-! ## Timeout sweep (`checkPositionTimeouts`, lines 850-864) -/

/-- The buy/sell price pair returned by the detector's price getter. -/
structure PricePair where
  buyPrice : ℚ
  sellPrice : ℚ
deriving DecidableEq, Repr

/-- One iteration of the timeout sweep for the pair with the given id: when
the absolute deadline has been reached (an unbounded deadline is never
reached) and the price getter returns current prices, close with reason
`TIMEOUT`; otherwise leave everything untouched. -/
def timeoutStep (cfg : Config) (co : CloseOracle) (getter : String → Option PricePair)
    (now : ℚ) (s : ExecState) (pid : ℕ) : ExecState :=
  match findPair s.openPositions pid with
  | none => s
  | some pair =>
    match pair.timeoutAt with
    | none => s
    | some tA =>
      if tA ≤ now then
        match getter pair.symbol with
        | some pr => closePositionPair cfg co now pid CloseReason.TIMEOUT pr.buyPrice pr.sellPrice s
        | none => s
      else s

/-- `checkPositionTimeouts` (lines 850-864): the periodic sweep over a
snapshot of the open map's keys. -/
def checkPositionTimeouts (cfg : Config) (co : CloseOracle)
    (getter : String → Option PricePair) (now : ℚ) (s : ExecState) : ExecState :=
  (s.openPositions.map (fun p => p.id)).foldl (timeoutStep cfg co getter now) s

/-! ## Open path (`openPositionPair`, part_000 lines 182-504) -/

/-- Outcomes of the remote calls an open sequence performs. -/
structure OpenOracle where
  binLeverageOk : Bool
  mexcLeverageOk : Bool
  longOk : Bool
  shortOk : Bool
  binBalance : Option ℚ
  mexcBalance : Option ℚ
deriving DecidableEq, Repr

/-- The absolute timeout deadline of a freshly opened pair: the `Infinity`
sentinel (modelled `none`) when the configured timeout is zero, otherwise
`now + positionTimeoutSeconds * 1000` (lines 227-229). -/
def mkTimeoutAt (cfg : Config) (now : ℚ) : Option ℚ :=
  if cfg.positionTimeoutSeconds = 0 then none
  else some (now + cfg.positionTimeoutSeconds * 1000)

/-- Non-fatal leverage setting on each venue involved in the pair; a venue's
failure is recorded as a `SET_LEVERAGE` error and the sequence continues
(lines 288-333). -/
def recordLeverageErrors (o : OpenOracle) (now : ℚ) (opp : Opportunity) (s : ExecState) :
    ExecState :=
  let s1 := if (opp.buyExchange = Exchange.binance ∨ opp.sellExchange = Exchange.binance) ∧
      ¬ o.binLeverageOk = true
    then addError s ⟨now, opp.symbol, ErrOp.SET_LEVERAGE, Exchange.binance⟩ else s
  if (opp.buyExchange = Exchange.mexc ∨ opp.sellExchange = Exchange.mexc) ∧
      ¬ o.mexcLeverageOk = true
    then addError s1 ⟨now, opp.symbol, ErrOp.SET_LEVERAGE, Exchange.mexc⟩ else s1

/-- The LONG leg constructed by `openPositionPair` (lines 231-242): entry at
the simulated average price, quantity the notional over that price. -/
def mkLongPosition (cfg : Config) (now : ℚ) (lid : ℕ) (opp : Opportunity) : Position :=
  let longExec := calculateExecutionPrice cfg cfg.positionSizeUSD opp.buyPrice opp.buyQtyAvailable
  { id := lid, symbol := opp.symbol,
    exchange := opp.buyExchange, side := PositionSide.LONG,
    entryPrice := longExec.avgPrice, exitPrice := none,
    quantity := cfg.positionSizeUSD / longExec.avgPrice, sizeUSD := cfg.positionSizeUSD,
    leverage := cfg.leverage, status := PositionStatus.OPEN,
    openTime := now, closeTime := none, pnl := none, pnlPercent := none }

/-- The SHORT leg constructed by `openPositionPair` (lines 244-255). -/
def mkShortPosition (cfg : Config) (now : ℚ) (sid : ℕ) (opp : Opportunity) : Position :=
  let shortExec :=
    calculateExecutionPrice cfg cfg.positionSizeUSD opp.sellPrice opp.sellQtyAvailable
  { id := sid, symbol := opp.symbol,
    exchange := opp.sellExchange, side := PositionSide.SHORT,
    entryPrice := shortExec.avgPrice, exitPrice := none,
    quantity := cfg.positionSizeUSD / shortExec.avgPrice, sizeUSD := cfg.positionSizeUSD,
    leverage := cfg.leverage, status := PositionStatus.OPEN,
    openTime := now, closeTime := none, pnl := none, pnlPercent := none }

/-- The `PositionPair` constructed by `openPositionPair` (lines 420-433). -/
def mkPositionPair (cfg : Config) (now : ℚ) (pid lid sid : ℕ) (opp : Opportunity) :
    PositionPair :=
  { id := pid, symbol := opp.symbol,
    longPosition := mkLongPosition cfg now lid opp,
    shortPosition := mkShortPosition cfg now sid opp,
    openSpread := opp.spreadPercent, currentSpread := none,
    expectedProfit := opp.profitPercent, actualProfit := none,
    status := PositionStatus.OPEN, openTime := now, closeTime := none,
    timeoutAt := mkTimeoutAt cfg now, closeReason := none,
    currentLongPrice := none, currentShortPrice := none,
    originalBinancePrice := (if opp.buyExchange = Exchange.binance then opp.buyPrice
      else opp.sellPrice),
    originalMexcPrice := (if opp.buyExchange = Exchange.mexc then opp.buyPrice
      else opp.sellPrice),
    priceDiffPercent := some opp.spreadPercent }

/-- `openPositionPair` (lines 182-504).  `pid`, `lid`, `sid` stand for the
three fresh `randomUUID`s.  Sequence: single-flight guard, (pure) rate-limit
sleep, capital check, execution-price simulation for both legs, position
construction; then in live mode the safety cap, the slot re-check, leverage
setting, the long leg (a failure aborts the open before the short leg is
placed), the inter-leg delay, the short leg; finally ledger insertion and
balance update (debit in test mode, venue reconciliation in live mode). -/
def openPositionPair (cfg : Config) (o : OpenOracle) (now : ℚ) (pid lid sid : ℕ)
    (opp : Opportunity) (s : ExecState) : ExecState × List Event :=
  if 0 < s.pendingOrders then (s, [Event.skip SkipReason.RATE_LIMIT_PENDING])
  else if s.currentBalance < cfg.positionSizeUSD * 2 then
    (s, [Event.skip SkipReason.INSUFFICIENT_BALANCE])
  else
    let positionPair := mkPositionPair cfg now pid lid sid opp
    if cfg.testMode then
      ({ s with openPositions := s.openPositions ++ [positionPair],
                currentBalance := s.currentBalance - cfg.positionSizeUSD * 2 }, [])
    else
      if 100 < cfg.positionSizeUSD then (s, [Event.skip SkipReason.POSITION_SIZE_TOO_LARGE])
      else if cfg.maxOpenPositions ≤ s.openPositions.length then
        (s, [Event.skip SkipReason.MAX_POSITIONS_REACHED])
      else
        let s1 := recordLeverageErrors o now opp s
        if o.longOk = false then
          (addError s1 ⟨now, opp.symbol, ErrOp.OPEN_LONG, opp.buyExchange⟩,
           [Event.order ErrOp.OPEN_LONG, Event.skip SkipReason.ORDER_CREATION_FAILED])
        else if o.shortOk = false then
          (addError s1 ⟨now, opp.symbol, ErrOp.OPEN_SHORT, opp.sellExchange⟩,
           [Event.order ErrOp.OPEN_LONG, Event.order ErrOp.OPEN_SHORT,
            Event.skip SkipReason.ORDER_CREATION_FAILED])
        else
          let s2 := { s1 with
            lastOrderTime := now,
            openPositions := s1.openPositions ++ [positionPair] }
          (reconcileBalance now opp.symbol o.binBalance o.mexcBalance s2,
           [Event.order ErrOp.OPEN_LONG, Event.order ErrOp.OPEN_SHORT])

/-! ## The detector (`arbitrage-detector.ts`) -/

/-- `canOpenNewPosition` (part_000 lines 129-132). -/
def canOpenNewPosition (cfg : Config) (s : ExecState) : Bool :=
  cfg.enabled && decide (s.openPositions.length < cfg.maxOpenPositions)

/-- `handleNewOpportunity` (arbitrage-detector.ts lines 267-280): return
silently when any open pair already covers the symbol; otherwise forward to
`openPositionPair` when a slot is free, else record `NO_FREE_SLOTS`. -/
def handleNewOpportunity (cfg : Config) (o : OpenOracle) (now : ℚ) (pid lid sid : ℕ)
    (opp : Opportunity) (s : ExecState) : ExecState × List Event :=
  if s.openPositions.any (fun p => decide (p.symbol = opp.symbol)) then (s, [])
  else if canOpenNewPosition cfg s then openPositionPair cfg o now pid lid sid opp s
  else (s, [Event.skip SkipReason.NO_FREE_SLOTS])

/-- The directional part of `checkArbitrage` (lines 182-198): buy on the venue
whose ask is strictly below the other venue's bid; no crossing, no direction. -/
structure TradeDirection where
  buyExchange : Exchange
  sellExchange : Exchange
  buyPrice : ℚ
  sellPrice : ℚ
  buyQtyAvailable : Option ℚ
  sellQtyAvailable : Option ℚ
deriving DecidableEq, Repr

/-- Lines 182-198 of `checkArbitrage`. -/
def detectDirection (price1 price2 : TickerPrice) : Option TradeDirection :=
  if price1.ask < price2.bid then
    some ⟨price1.exchange, price2.exchange, price1.ask, price2.bid, price1.askQty, price2.bidQty⟩
  else if price2.ask < price1.bid then
    some ⟨price2.exchange, price1.exchange, price2.ask, price1.bid, price2.askQty, price1.bidQty⟩
  else none

/-- Taker fee of a venue (`config.fees[exchange].taker`). -/
def takerFee (cfg : Config) (e : Exchange) : ℚ :=
  match e with
  | Exchange.binance => cfg.binanceTaker
  | Exchange.mexc => cfg.mexcTaker

/-- The `ArbitrageOpportunity` record `checkArbitrage` constructs once the
spread gate passes (lines 238-258): spread from the crossing prices,
post-fee/slippage profit percent. -/
def mkOpportunity (cfg : Config) (symbol : String) (d : TradeDirection) : Opportunity :=
  let buyFee := takerFee cfg d.buyExchange / 100
  let sellFee := takerFee cfg d.sellExchange / 100
  let slippage := cfg.slippagePercent / 100
  let buyPriceWithFee := d.buyPrice * (1 + buyFee + slippage)
  let sellPriceWithFee := d.sellPrice * (1 - sellFee - slippage)
  { symbol := symbol,
    buyExchange := d.buyExchange, sellExchange := d.sellExchange,
    buyPrice := d.buyPrice, sellPrice := d.sellPrice,
    buyQtyAvailable := d.buyQtyAvailable, sellQtyAvailable := d.sellQtyAvailable,
    spreadPercent := (d.sellPrice - d.buyPrice) / d.buyPrice * 100,
    profitPercent := (sellPriceWithFee - buyPriceWithFee) / buyPriceWithFee * 100 }

/-- The opportunity records contained in an event trace. -/
def oppEvents (evs : List Event) : List Opportunity :=
  evs.filterMap (fun e => match e with
    | Event.opportunity opp => some opp
    | _ => none)

/-- `checkArbitrage` (arbitrage-detector.ts lines 166-265).  Events record the
observable calls: `propagate` is the unconditional `updatePositionSpread` call
on the crossing prices (line 234, before the minimum-spread gate of line 236),
`opportunity` is the construction of the `ArbitrageOpportunity` once the
spread gate passes.  The TUI scanner cache (lines 202-229) is a pure observer
and is not modelled. -/
def checkArbitrage (cfg : Config) (o : OpenOracle) (co : CloseOracle) (now : ℚ)
    (pid lid sid : ℕ) (price1 price2 : TickerPrice) (symbol : String) (s : ExecState) :
    ExecState × List Event :=
  match detectDirection price1 price2 with
  | none => (s, [])
  | some d =>
    let spreadPercent := (d.sellPrice - d.buyPrice) / d.buyPrice * 100
    let s1 := updatePositionSpread cfg co now symbol d.buyPrice d.sellPrice s
    if spreadPercent < cfg.minSpreadPercent then
      (s1, [Event.propagate d.buyPrice d.sellPrice])
    else
      let opp := mkOpportunity cfg symbol d
      if cfg.enabled then
        let he := handleNewOpportunity cfg o now pid lid sid opp s1
        (he.1, Event.propagate d.buyPrice d.sellPrice :: Event.opportunity opp :: he.2)
      else
        (s1, [Event.propagate d.buyPrice d.sellPrice, Event.opportunity opp])

/-! ## Concrete fixtures used by witnesses and counterexamples -/

/-- A concrete leg used to build witness states. -/
def samplePosition (pid : ℕ) (sym : String) (ex : Exchange) (side : PositionSide)
    (entry : ℚ) : Position :=
  { id := pid, symbol := sym, exchange := ex, side := side, entryPrice := entry,
    exitPrice := none, quantity := 1, sizeUSD := 100, leverage := 1,
    status := PositionStatus.OPEN, openTime := 0, closeTime := none, pnl := none,
    pnlPercent := none }

/-- A concrete open pair used to build witness states: long on binance at
`entryLong`, short on mexc at `entryShort`, deadline `tA`. -/
def samplePair (pid : ℕ) (sym : String) (entryLong entryShort : ℚ) (tA : Option ℚ) :
    PositionPair :=
  { id := pid, symbol := sym,
    longPosition := samplePosition (pid + 100) sym Exchange.binance PositionSide.LONG entryLong,
    shortPosition := samplePosition (pid + 200) sym Exchange.mexc PositionSide.SHORT entryShort,
    openSpread := 1, currentSpread := none, expectedProfit := 1, actualProfit := none,
    status := PositionStatus.OPEN, openTime := 0, closeTime := none, timeoutAt := tA,
    closeReason := none, currentLongPrice := none, currentShortPrice := none,
    originalBinancePrice := entryLong, originalMexcPrice := entryShort,
    priceDiffPercent := none }

/-- A concrete opportunity used by witnesses: buy binance at `buy`, sell mexc
at `sell`, with the given visible quantities. -/
def sampleOpp (sym : String) (buy sell : ℚ) (bq sq : Option ℚ) : Opportunity :=
  { symbol := sym, buyExchange := Exchange.binance, sellExchange := Exchange.mexc,
    buyPrice := buy, sellPrice := sell, buyQtyAvailable := bq, sellQtyAvailable := sq,
    spreadPercent := (sell - buy) / buy * 100, profitPercent := 1 }

/-- An all-success open oracle with both venue balances available. -/
def okOracle : OpenOracle :=
  { binLeverageOk := true, mexcLeverageOk := true, longOk := true, shortOk := true,
    binBalance := some 400, mexcBalance := some 500 }

/-- An all-success close oracle. -/
def okCloseOracle : CloseOracle :=
  { closeLongOk := true, closeShortOk := true, binBalance := some 400, mexcBalance := some 500 }

/-- Branch lemma: a covering visible depth yields a full fill at the quoted
price with zero slippage cost. -/
theorem calculateExecutionPrice_full (cfg : Config) (r q vq : ℚ) (h : r ≤ vq * q) :
    calculateExecutionPrice cfg r q (some vq) = ⟨q, 0, true⟩ := by
  simp [calculateExecutionPrice, h]

/-- Branch lemma: an insufficient visible depth yields the notional-weighted
blend and the coin-shortfall cost of the source's partial branch. -/
theorem calculateExecutionPrice_shortDepth (cfg : Config) (r q vq : ℚ) (h : ¬ r ≤ vq * q) :
    calculateExecutionPrice cfg r q (some vq) =
      { avgPrice := (vq * q * q + (r - vq * q) * (q * (1 + cfg.slippagePercent / 100))) / r
        slippageCost :=
          (r / q - r / ((vq * q * q + (r - vq * q) * (q * (1 + cfg.slippagePercent / 100))) / r)) * q
        fullFill := false } := by
  simp [calculateExecutionPrice, h]

section C4

/-- C4: the Execution Price Simulator, for positive requested notional and
quoted price, positive configured slippage and a reported visible quantity:
the fill is at the quoted price with zero slippage cost exactly when the
visible depth covers the request; otherwise the average price is the
notional-weighted blend of the quoted price and the penalty price, lies
strictly above the quoted price (and strictly below the penalty price provided
the visible quantity is positive), and the slippage cost is positive.
(The claim's unqualified "strictly between" fails at `visibleQty = 0`, see the
counterexample; this is the amended form.) -/
theorem c4_execution_price_simulator (cfg : Config) (r q vq : ℚ)
    (hr : 0 < r) (hq : 0 < q) (hslip : 0 < cfg.slippagePercent) (hvq : 0 ≤ vq) :
    ((calculateExecutionPrice cfg r q (some vq)).avgPrice = q ∧
      (calculateExecutionPrice cfg r q (some vq)).slippageCost = 0 ↔ r ≤ vq * q) ∧
    (¬ r ≤ vq * q →
      (calculateExecutionPrice cfg r q (some vq)).avgPrice =
        (vq * q * q + (r - vq * q) * (q * (1 + cfg.slippagePercent / 100))) / r ∧
      q < (calculateExecutionPrice cfg r q (some vq)).avgPrice ∧
      (0 < vq →
       (calculateExecutionPrice cfg r q (some vq)).avgPrice <
         q * (1 + cfg.slippagePercent / 100)) ∧
      0 < (calculateExecutionPrice cfg r q (some vq)).slippageCost) := by
  by_cases hcov : r ≤ vq * q
  · rw [calculateExecutionPrice_full cfg r q vq hcov]
    exact ⟨⟨fun _ => hcov, fun _ => ⟨rfl, rfl⟩⟩, fun hc => absurd hcov hc⟩
  · rw [calculateExecutionPrice_shortDepth cfg r q vq hcov]
    dsimp only
    have hlt : vq * q < r := lt_of_not_le hcov
    have hqlt : q < (vq * q * q + (r - vq * q) * (q * (1 + cfg.slippagePercent / 100))) / r := by
      rw [lt_div_iff₀ hr]
      have h1 : 0 < (r - vq * q) * (q * cfg.slippagePercent / 100) := by
        apply mul_pos (by linarith)
        positivity
      nlinarith [h1]
    refine ⟨⟨?_, fun hc => absurd hc hcov⟩, fun _ => ⟨rfl, hqlt, ?_, ?_⟩⟩
    · rintro ⟨h1, _⟩
      exfalso
      rw [h1] at hqlt
      exact lt_irrefl q hqlt
    · intro hvqpos
      rw [div_lt_iff₀ hr]
      have h2 : 0 < vq * q * (q * cfg.slippagePercent / 100) := by
        apply mul_pos (mul_pos hvqpos hq)
        positivity
      nlinarith [h2]
    · have hdl : r / ((vq * q * q + (r - vq * q) * (q * (1 + cfg.slippagePercent / 100))) / r)
          < r / q := div_lt_div_of_pos_left hr hq hqlt
      have hpos : 0 < r / q -
          r / ((vq * q * q + (r - vq * q) * (q * (1 + cfg.slippagePercent / 100))) / r) := by
        linarith
      exact mul_pos hpos hq

/-- Witness for C4 at the spec's own example: notional 1000, price 100,
visible qty 5, slippage 0.1%: partial fill, average strictly inside
(100, 100.1), positive cost. -/
theorem c4_execution_price_simulator_witness :
    let cfg : Config := ⟨true, true, 100, 3, 60, 1, 0, false, 0, 0, 1/10, 0, 1000⟩
    ((calculateExecutionPrice cfg 1000 100 (some 5)).avgPrice = 100 ∧
      (calculateExecutionPrice cfg 1000 100 (some 5)).slippageCost = 0 ↔
        (1000 : ℚ) ≤ 5 * 100) ∧
    (¬ (1000 : ℚ) ≤ 5 * 100 →
      (calculateExecutionPrice cfg 1000 100 (some 5)).avgPrice =
        (5 * 100 * 100 + (1000 - 5 * 100) * (100 * (1 + (1/10) / 100))) / 1000 ∧
      100 < (calculateExecutionPrice cfg 1000 100 (some 5)).avgPrice ∧
      ((0 : ℚ) < 5 →
        (calculateExecutionPrice cfg 1000 100 (some 5)).avgPrice <
          100 * (1 + (1/10) / 100)) ∧
      0 < (calculateExecutionPrice cfg 1000 100 (some 5)).slippageCost) :=
  c4_execution_price_simulator _ 1000 100 5 (by norm_num) (by norm_num)
    (by norm_num) (by norm_num)

/-- C4 counterexample to the claim as stated: at `visibleQty = 0` (a reported
zero depth, within the claim's "every ... visibleQty"), the returned average
price equals the penalty price `quotedPrice * (1 + slippagePercent/100)`
exactly, so it does not lie strictly between the two prices. -/
theorem c4_zero_qty_counterexample :
    let cfg : Config := ⟨true, true, 100, 3, 60, 1, 0, false, 0, 0, 1/10, 0, 1000⟩
    (calculateExecutionPrice cfg 1000 100 (some 0)).avgPrice =
        100 * (1 + (1/10) / 100) ∧
      ¬ (calculateExecutionPrice cfg 1000 100 (some 0)).avgPrice <
          100 * (1 + (1/10) / 100) := by
  intro cfg
  rw [calculateExecutionPrice_shortDepth cfg 1000 100 0 (by norm_num)]
  norm_num [cfg]

end C4

/-! ## Ledger lemmas -/

/-- A found pair carries the looked-up id. -/
theorem findPair_id {l : List PositionPair} {pid : ℕ} {p : PositionPair}
    (h : findPair l pid = some p) : p.id = pid := by
  induction l with
  | nil => simp [findPair] at h
  | cons hd tl ih =>
    by_cases hh : hd.id = pid
    · simp [findPair, hh] at h
      rw [← h]
      exact hh
    · simp [findPair, hh] at h
      exact ih h

/-- A found pair is a member of the ledger. -/
theorem findPair_mem {l : List PositionPair} {pid : ℕ} {p : PositionPair}
    (h : findPair l pid = some p) : p ∈ l := by
  induction l with
  | nil => simp [findPair] at h
  | cons hd tl ih =>
    by_cases hh : hd.id = pid
    · simp [findPair, hh] at h
      simp [h]
    · simp [findPair, hh] at h
      simp [ih h]

/-- Replacing one entry leaves lookups of other ids unchanged. -/
theorem findPair_replace_ne {l : List PositionPair} {pid i : ℕ} {p' : PositionPair}
    (hp : p'.id = pid) (hne : i ≠ pid) :
    findPair (replacePair l pid p') i = findPair l i := by
  induction l with
  | nil => rfl
  | cons hd tl ih =>
    by_cases hh : hd.id = pid
    · have h1 : ¬ p'.id = i := fun h => hne (by rw [← h]; exact hp)
      have h2 : ¬ hd.id = i := fun h => hne (by rw [← h]; exact hh)
      simp only [replacePair, findPair, if_pos hh, if_neg h1, if_neg h2]
      exact ih
    · simp only [replacePair, findPair, if_neg hh]
      by_cases hi : hd.id = i
      · simp only [if_pos hi]
      · simp only [if_neg hi]
        exact ih

/-- Replacing the entry found for an id makes the lookup return the
replacement. -/
theorem findPair_replace_self {l : List PositionPair} {pid : ℕ} {p p' : PositionPair}
    (h : findPair l pid = some p) (hp : p'.id = pid) :
    findPair (replacePair l pid p') pid = some p' := by
  induction l with
  | nil => simp [findPair] at h
  | cons hd tl ih =>
    by_cases hh : hd.id = pid
    · simp only [replacePair, findPair, if_pos hh, if_pos hp]
    · simp only [findPair, if_neg hh] at h
      simp only [replacePair, findPair, if_neg hh]
      exact ih h

/-- After erasing an id it can no longer be found. -/
theorem findPair_erase_self (l : List PositionPair) (pid : ℕ) :
    findPair (erasePair l pid) pid = none := by
  induction l with
  | nil => rfl
  | cons hd tl ih =>
    by_cases hh : hd.id = pid
    · simp only [erasePair, if_pos hh]
      exact ih
    · simp only [erasePair, if_neg hh, findPair]
      exact ih

/-- Erasing one id leaves lookups of other ids unchanged. -/
theorem findPair_erase_ne {l : List PositionPair} {pid i : ℕ} (hne : i ≠ pid) :
    findPair (erasePair l pid) i = findPair l i := by
  induction l with
  | nil => rfl
  | cons hd tl ih =>
    by_cases hh : hd.id = pid
    · have h2 : ¬ hd.id = i := fun h => hne (by rw [← h]; exact hh)
      simp only [erasePair, if_pos hh, findPair, if_neg h2]
      exact ih
    · simp only [erasePair, if_neg hh, findPair]
      by_cases hi : hd.id = i
      · rw [if_pos hi, if_pos hi]
      · rw [if_neg hi, if_neg hi]
        exact ih

/-- Lookup in an appended ledger: the left part wins. -/
theorem findPair_append (l₁ l₂ : List PositionPair) (i : ℕ) :
    findPair (l₁ ++ l₂) i =
      match findPair l₁ i with
      | some p => some p
      | none => findPair l₂ i := by
  induction l₁ with
  | nil => simp [findPair]
  | cons hd tl ih =>
    by_cases hh : hd.id = i
    · simp [findPair, hh]
    · simp [findPair, hh, ih]

/-! ## Close-path lemmas -/

/-- `closeLegs` only appends trading errors: the open map is untouched. -/
theorem closeLegs_openPositions (cfg : Config) (co : CloseOracle) (now : ℚ) (pid : ℕ)
    (s : ExecState) : (closeLegs cfg co now pid s).openPositions = s.openPositions := by
  simp only [closeLegs, addError]
  repeat' split
  all_goals rfl

/-- `closeLegs` leaves the closed history untouched. -/
theorem closeLegs_closedPositions (cfg : Config) (co : CloseOracle) (now : ℚ) (pid : ℕ)
    (s : ExecState) : (closeLegs cfg co now pid s).closedPositions = s.closedPositions := by
  simp only [closeLegs, addError]
  repeat' split
  all_goals rfl

/-- `closeLegs` leaves the balance untouched. -/
theorem closeLegs_currentBalance (cfg : Config) (co : CloseOracle) (now : ℚ) (pid : ℕ)
    (s : ExecState) : (closeLegs cfg co now pid s).currentBalance = s.currentBalance := by
  simp only [closeLegs, addError]
  repeat' split
  all_goals rfl

/-- `closeLegs` leaves the statistics untouched. -/
theorem closeLegs_testStats (cfg : Config) (co : CloseOracle) (now : ℚ) (pid : ℕ)
    (s : ExecState) : (closeLegs cfg co now pid s).testStats = s.testStats := by
  simp only [closeLegs, addError]
  repeat' split
  all_goals rfl

/-- `closeLegs` leaves the single-flight counter untouched. -/
theorem closeLegs_pendingOrders (cfg : Config) (co : CloseOracle) (now : ℚ) (pid : ℕ)
    (s : ExecState) : (closeLegs cfg co now pid s).pendingOrders = s.pendingOrders := by
  simp only [closeLegs, addError]
  repeat' split
  all_goals rfl

/-- `reconcileBalance` only touches the balance and the error log. -/
theorem reconcileBalance_openPositions (now : ℚ) (sym : String) (bB bM : Option ℚ)
    (s : ExecState) : (reconcileBalance now sym bB bM s).openPositions = s.openPositions := by
  simp only [reconcileBalance, addError]
  repeat' split
  all_goals rfl

/-- `reconcileBalance` leaves the closed history untouched. -/
theorem reconcileBalance_closedPositions (now : ℚ) (sym : String) (bB bM : Option ℚ)
    (s : ExecState) : (reconcileBalance now sym bB bM s).closedPositions = s.closedPositions := by
  simp only [reconcileBalance, addError]
  repeat' split
  all_goals rfl

/-- `reconcileBalance` leaves the statistics untouched. -/
theorem reconcileBalance_testStats (now : ℚ) (sym : String) (bB bM : Option ℚ)
    (s : ExecState) : (reconcileBalance now sym bB bM s).testStats = s.testStats := by
  simp only [reconcileBalance, addError]
  repeat' split
  all_goals rfl

/-- `reconcileBalance` leaves the single-flight counter untouched. -/
theorem reconcileBalance_pendingOrders (now : ℚ) (sym : String) (bB bM : Option ℚ)
    (s : ExecState) : (reconcileBalance now sym bB bM s).pendingOrders = s.pendingOrders := by
  simp only [reconcileBalance, addError]
  repeat' split
  all_goals rfl

/-- Marking preserves the pair's id. -/
theorem markPair_id (cfg : Config) (now : ℚ) (reason : CloseReason) (buy sell : ℚ)
    (pair : PositionPair) : (markPair cfg now reason buy sell pair).id = pair.id := rfl

/-- `closeMark` of a present pair replaces it by its marked version. -/
theorem closeMark_openPositions_found {cfg : Config} {now : ℚ} {pid : ℕ} {reason : CloseReason}
    {buy sell : ℚ} {s : ExecState} {pair : PositionPair}
    (h : findPair s.openPositions pid = some pair) :
    (closeMark cfg now pid reason buy sell s).openPositions =
      replacePair s.openPositions pid (markPair cfg now reason buy sell pair) := by
  unfold closeMark
  rw [h]

/-- `closeMark` leaves the closed history untouched. -/
theorem closeMark_closedPositions (cfg : Config) (now : ℚ) (pid : ℕ) (reason : CloseReason)
    (buy sell : ℚ) (s : ExecState) :
    (closeMark cfg now pid reason buy sell s).closedPositions = s.closedPositions := by
  unfold closeMark
  cases findPair s.openPositions pid <;> rfl

/-- `closeMark` leaves the balance untouched. -/
theorem closeMark_currentBalance (cfg : Config) (now : ℚ) (pid : ℕ) (reason : CloseReason)
    (buy sell : ℚ) (s : ExecState) :
    (closeMark cfg now pid reason buy sell s).currentBalance = s.currentBalance := by
  unfold closeMark
  cases findPair s.openPositions pid <;> rfl

/-- `closeMark` leaves the statistics untouched. -/
theorem closeMark_testStats (cfg : Config) (now : ℚ) (pid : ℕ) (reason : CloseReason)
    (buy sell : ℚ) (s : ExecState) :
    (closeMark cfg now pid reason buy sell s).testStats = s.testStats := by
  unfold closeMark
  cases findPair s.openPositions pid <;> rfl

/-- `closeMark` leaves the single-flight counter untouched. -/
theorem closeMark_pendingOrders (cfg : Config) (now : ℚ) (pid : ℕ) (reason : CloseReason)
    (buy sell : ℚ) (s : ExecState) :
    (closeMark cfg now pid reason buy sell s).pendingOrders = s.pendingOrders := by
  unfold closeMark
  cases findPair s.openPositions pid <;> rfl

/-- `closeFinish` on a present pair: the open map loses the pair. -/
theorem closeFinish_openPositions {cfg : Config} {co : CloseOracle} {now : ℚ} {pid : ℕ}
    {s : ExecState} {pair' : PositionPair} (h : findPair s.openPositions pid = some pair') :
    (closeFinish cfg co now pid s).openPositions = erasePair s.openPositions pid := by
  simp only [closeFinish, h]
  repeat' split
  all_goals first
  | rfl
  | rw [reconcileBalance_openPositions]

/-- `closeFinish` on a present pair: the pair object joins the closed history. -/
theorem closeFinish_closedPositions {cfg : Config} {co : CloseOracle} {now : ℚ} {pid : ℕ}
    {s : ExecState} {pair' : PositionPair} (h : findPair s.openPositions pid = some pair') :
    (closeFinish cfg co now pid s).closedPositions = s.closedPositions ++ [pair'] := by
  simp only [closeFinish, h]
  repeat' split
  all_goals first
  | rfl
  | rw [reconcileBalance_closedPositions]

/-- `closeFinish` in test mode credits twice the per-leg notional plus the
stored PnL. -/
theorem closeFinish_balance_test {cfg : Config} {co : CloseOracle} {now : ℚ} {pid : ℕ}
    {s : ExecState} {pair' : PositionPair} (htm : cfg.testMode = true)
    (h : findPair s.openPositions pid = some pair') :
    (closeFinish cfg co now pid s).currentBalance =
      s.currentBalance +
        (cfg.positionSizeUSD * 2 + pair'.actualProfit.getD 0 / 100 * (cfg.positionSizeUSD * 2)) := by
  simp only [closeFinish, h, htm]
  repeat' split
  all_goals first
  | rfl
  | exact absurd trivial ‹¬True›

/-- `closeFinish` never touches the single-flight counter. -/
theorem closeFinish_pendingOrders (cfg : Config) (co : CloseOracle) (now : ℚ) (pid : ℕ)
    (s : ExecState) : (closeFinish cfg co now pid s).pendingOrders = s.pendingOrders := by
  cases h : findPair s.openPositions pid
  · unfold closeFinish
    rw [h]
  · simp only [closeFinish, h]
    repeat' split
    all_goals first
    | rfl
    | exact reconcileBalance_pendingOrders _ _ _ _ _

/-- The marked pair records the close reason. -/
theorem markPair_closeReason (cfg : Config) (now : ℚ) (reason : CloseReason) (buy sell : ℚ)
    (pair : PositionPair) :
    (markPair cfg now reason buy sell pair).closeReason = some reason := rfl

/-- The marked pair's status: `TIMEOUT_CLOSED` for a timeout, `CLOSED`
otherwise. -/
theorem markPair_status (cfg : Config) (now : ℚ) (reason : CloseReason) (buy sell : ℚ)
    (pair : PositionPair) :
    (markPair cfg now reason buy sell pair).status =
      if reason = CloseReason.TIMEOUT then PositionStatus.TIMEOUT_CLOSED
      else PositionStatus.CLOSED := rfl

/-- A missing pair id makes `closePositionPair` a no-op (the idempotency
guard of line 564). -/
theorem closePositionPair_none {cfg : Config} {co : CloseOracle} {now : ℚ} {pid : ℕ}
    {reason : CloseReason} {buy sell : ℚ} {s : ExecState}
    (h : findPair s.openPositions pid = none) :
    closePositionPair cfg co now pid reason buy sell s = s := by
  unfold closePositionPair
  rw [h]

/-- Open map of the state handed to `closeFinish`: the pair replaced by its
marked version. -/
theorem close_stage_open {cfg : Config} {co : CloseOracle} {now : ℚ} {pid : ℕ}
    {reason : CloseReason} {buy sell : ℚ} {s : ExecState} {pair : PositionPair}
    (h : findPair s.openPositions pid = some pair) :
    (closeLegs cfg co now pid (closeMark cfg now pid reason buy sell s)).openPositions =
      replacePair s.openPositions pid (markPair cfg now reason buy sell pair) := by
  rw [closeLegs_openPositions, closeMark_openPositions_found h]

/-- The marked pair is found by `closeFinish`. -/
theorem close_stage_find {cfg : Config} {co : CloseOracle} {now : ℚ} {pid : ℕ}
    {reason : CloseReason} {buy sell : ℚ} {s : ExecState} {pair : PositionPair}
    (h : findPair s.openPositions pid = some pair) :
    findPair (closeLegs cfg co now pid (closeMark cfg now pid reason buy sell s)).openPositions
      pid = some (markPair cfg now reason buy sell pair) := by
  rw [close_stage_open h]
  exact findPair_replace_self h (by rw [markPair_id]; exact findPair_id h)

/-- After a close, the pair id is gone from the open map. -/
theorem closePositionPair_find_self (cfg : Config) (co : CloseOracle) (now : ℚ) (pid : ℕ)
    (reason : CloseReason) (buy sell : ℚ) (s : ExecState) :
    findPair (closePositionPair cfg co now pid reason buy sell s).openPositions pid = none := by
  cases h : findPair s.openPositions pid with
  | none => rw [closePositionPair_none h]; exact h
  | some pair =>
    unfold closePositionPair
    rw [h, closeFinish_openPositions (close_stage_find h)]
    exact findPair_erase_self _ _

/-- A close of one id leaves other ids' lookups unchanged. -/
theorem closePositionPair_find_ne {cfg : Config} {co : CloseOracle} {now : ℚ} {pid i : ℕ}
    {reason : CloseReason} {buy sell : ℚ} {s : ExecState} (hne : i ≠ pid) :
    findPair (closePositionPair cfg co now pid reason buy sell s).openPositions i =
      findPair s.openPositions i := by
  cases h : findPair s.openPositions pid with
  | none => rw [closePositionPair_none h]
  | some pair =>
    unfold closePositionPair
    rw [h, closeFinish_openPositions (close_stage_find h), findPair_erase_ne hne,
        close_stage_open h,
        findPair_replace_ne (by rw [markPair_id]; exact findPair_id h) hne]

/-- A close appends exactly the marked pair to the closed history. -/
theorem closePositionPair_closed {cfg : Config} {co : CloseOracle} {now : ℚ} {pid : ℕ}
    {reason : CloseReason} {buy sell : ℚ} {s : ExecState} {pair : PositionPair}
    (h : findPair s.openPositions pid = some pair) :
    (closePositionPair cfg co now pid reason buy sell s).closedPositions =
      s.closedPositions ++ [markPair cfg now reason buy sell pair] := by
  unfold closePositionPair
  rw [h, closeFinish_closedPositions (close_stage_find h), closeLegs_closedPositions,
      closeMark_closedPositions]

/-- The closed history never shrinks across a close. -/
theorem closePositionPair_closed_mono {cfg : Config} {co : CloseOracle} {now : ℚ} {pid : ℕ}
    {reason : CloseReason} {buy sell : ℚ} {s : ExecState} {x : PositionPair}
    (hx : x ∈ s.closedPositions) :
    x ∈ (closePositionPair cfg co now pid reason buy sell s).closedPositions := by
  cases h : findPair s.openPositions pid with
  | none => rw [closePositionPair_none h]; exact hx
  | some pair =>
    rw [closePositionPair_closed h]
    exact List.mem_append_left _ hx

/-- Test-mode close credits exactly `2 * positionSizeUSD + pnlUSD`. -/
theorem closePositionPair_balance_test {cfg : Config} {co : CloseOracle} {now : ℚ} {pid : ℕ}
    {reason : CloseReason} {buy sell : ℚ} {s : ExecState} {pair : PositionPair}
    (htm : cfg.testMode = true) (h : findPair s.openPositions pid = some pair) :
    (closePositionPair cfg co now pid reason buy sell s).currentBalance =
      s.currentBalance + (cfg.positionSizeUSD * 2 + pairPnlUSD cfg pair buy sell) := by
  unfold closePositionPair
  rw [h, closeFinish_balance_test htm (close_stage_find h), closeLegs_currentBalance,
      closeMark_currentBalance]
  rfl

/-- A close never touches the single-flight counter. -/
theorem closePositionPair_pendingOrders (cfg : Config) (co : CloseOracle) (now : ℚ) (pid : ℕ)
    (reason : CloseReason) (buy sell : ℚ) (s : ExecState) :
    (closePositionPair cfg co now pid reason buy sell s).pendingOrders = s.pendingOrders := by
  cases h : findPair s.openPositions pid with
  | none => rw [closePositionPair_none h]
  | some pair =>
    unfold closePositionPair
    rw [h, closeFinish_pendingOrders, closeLegs_pendingOrders, closeMark_pendingOrders]

/-! ## Timeout-sweep lemmas -/

/-- A sweep iteration for an absent id is a no-op. -/
theorem timeoutStep_absent {cfg : Config} {co : CloseOracle} {getter : String → Option PricePair}
    {now : ℚ} {s : ExecState} {pid : ℕ} (h : findPair s.openPositions pid = none) :
    timeoutStep cfg co getter now s pid = s := by
  unfold timeoutStep
  rw [h]

/-- A pair with the unbounded deadline is never touched by the sweep. -/
theorem timeoutStep_unbounded {cfg : Config} {co : CloseOracle}
    {getter : String → Option PricePair} {now : ℚ} {s : ExecState} {pid : ℕ}
    {pair : PositionPair} (h : findPair s.openPositions pid = some pair)
    (ht : pair.timeoutAt = none) :
    timeoutStep cfg co getter now s pid = s := by
  unfold timeoutStep
  rw [h]
  dsimp only
  rw [ht]

/-- A pair whose deadline has not been reached is never touched by the sweep. -/
theorem timeoutStep_not_due {cfg : Config} {co : CloseOracle}
    {getter : String → Option PricePair} {now : ℚ} {s : ExecState} {pid : ℕ}
    {pair : PositionPair} {tA : ℚ} (h : findPair s.openPositions pid = some pair)
    (ht : pair.timeoutAt = some tA) (hlt : ¬ tA ≤ now) :
    timeoutStep cfg co getter now s pid = s := by
  unfold timeoutStep
  rw [h]
  dsimp only
  rw [ht]
  dsimp only
  rw [if_neg hlt]

/-- A due pair whose symbol has no current prices is left entirely alone. -/
theorem timeoutStep_no_prices {cfg : Config} {co : CloseOracle}
    {getter : String → Option PricePair} {now : ℚ} {s : ExecState} {pid : ℕ}
    {pair : PositionPair} (h : findPair s.openPositions pid = some pair)
    (hg : getter pair.symbol = none) :
    timeoutStep cfg co getter now s pid = s := by
  unfold timeoutStep
  rw [h]
  dsimp only
  cases ht : pair.timeoutAt with
  | none => rfl
  | some tA =>
    dsimp only
    by_cases hle : tA ≤ now
    · rw [if_pos hle, hg]
    · rw [if_neg hle]

/-- A due pair with current prices is closed with reason `TIMEOUT`. -/
theorem timeoutStep_closes {cfg : Config} {co : CloseOracle}
    {getter : String → Option PricePair} {now : ℚ} {s : ExecState} {pid : ℕ}
    {pair : PositionPair} {tA : ℚ} {pr : PricePair}
    (h : findPair s.openPositions pid = some pair) (ht : pair.timeoutAt = some tA)
    (hle : tA ≤ now) (hg : getter pair.symbol = some pr) :
    timeoutStep cfg co getter now s pid =
      closePositionPair cfg co now pid CloseReason.TIMEOUT pr.buyPrice pr.sellPrice s := by
  unfold timeoutStep
  rw [h]
  dsimp only
  rw [ht]
  dsimp only
  rw [if_pos hle, hg]

/-- A sweep iteration of one id does not disturb lookups of another id. -/
theorem timeoutStep_find_ne {cfg : Config} {co : CloseOracle}
    {getter : String → Option PricePair} {now : ℚ} {s : ExecState} {pid i : ℕ}
    (hne : i ≠ pid) :
    findPair (timeoutStep cfg co getter now s pid).openPositions i =
      findPair s.openPositions i := by
  unfold timeoutStep
  cases h : findPair s.openPositions pid with
  | none => rfl
  | some pair =>
    dsimp only
    cases ht : pair.timeoutAt with
    | none => rfl
    | some tA =>
      dsimp only
      by_cases hle : tA ≤ now
      · rw [if_pos hle]
        cases hg : getter pair.symbol with
        | none => rfl
        | some pr => exact closePositionPair_find_ne hne
      · rw [if_neg hle]

/-- A sweep iteration never introduces an id into the open map. -/
theorem timeoutStep_find_none {cfg : Config} {co : CloseOracle}
    {getter : String → Option PricePair} {now : ℚ} {s : ExecState} {pid i : ℕ}
    (h : findPair s.openPositions i = none) :
    findPair (timeoutStep cfg co getter now s pid).openPositions i = none := by
  by_cases hip : i = pid
  · subst hip
    rw [timeoutStep_absent h]
    exact h
  · rw [timeoutStep_find_ne hip]
    exact h

/-- A sweep iteration never removes anything from the closed history. -/
theorem timeoutStep_closed_mono {cfg : Config} {co : CloseOracle}
    {getter : String → Option PricePair} {now : ℚ} {s : ExecState} {pid : ℕ}
    {x : PositionPair} (hx : x ∈ s.closedPositions) :
    x ∈ (timeoutStep cfg co getter now s pid).closedPositions := by
  unfold timeoutStep
  cases h : findPair s.openPositions pid with
  | none => exact hx
  | some pair =>
    dsimp only
    cases ht : pair.timeoutAt with
    | none => exact hx
    | some tA =>
      dsimp only
      by_cases hle : tA ≤ now
      · rw [if_pos hle]
        cases hg : getter pair.symbol with
        | none => exact hx
        | some pr => exact closePositionPair_closed_mono hx
      · rw [if_neg hle]
        exact hx

/-- Folding sweep iterations over ids that avoid a present pair leaves its
lookup unchanged. -/
theorem foldl_timeout_pres {cfg : Config} {co : CloseOracle}
    {getter : String → Option PricePair} {now : ℚ} {pid : ℕ} {pair : PositionPair}
    (l : List ℕ) (s : ExecState) (hl : pid ∉ l)
    (h : findPair s.openPositions pid = some pair) :
    findPair (List.foldl (timeoutStep cfg co getter now) s l).openPositions pid = some pair := by
  induction l generalizing s with
  | nil => exact h
  | cons hd tl ih =>
    have hhd : pid ≠ hd := fun he => hl (he ▸ List.mem_cons_self hd tl)
    have htl : pid ∉ tl := fun he => hl (List.mem_cons_of_mem hd he)
    rw [List.foldl_cons]
    refine ih _ htl ?_
    rw [timeoutStep_find_ne hhd]
    exact h

/-- Folding sweep iterations over any ids keeps a blocked pair (unbounded
deadline, not yet due, or no current prices) untouched. -/
theorem foldl_timeout_blocked {cfg : Config} {co : CloseOracle}
    {getter : String → Option PricePair} {now : ℚ} {pid : ℕ} {pair : PositionPair}
    (l : List ℕ) (s : ExecState)
    (h : findPair s.openPositions pid = some pair)
    (hb : pair.timeoutAt = none ∨ (∃ tA, pair.timeoutAt = some tA ∧ ¬ tA ≤ now) ∨
      getter pair.symbol = none) :
    findPair (List.foldl (timeoutStep cfg co getter now) s l).openPositions pid = some pair := by
  induction l generalizing s with
  | nil => exact h
  | cons hd tl ih =>
    rw [List.foldl_cons]
    by_cases hhd : hd = pid
    · subst hhd
      have hstep : timeoutStep cfg co getter now s hd = s := by
        rcases hb with ht | ⟨tA, ht, hlt⟩ | hg
        · exact timeoutStep_unbounded h ht
        · exact timeoutStep_not_due h ht hlt
        · exact timeoutStep_no_prices h hg
      rw [hstep]
      exact ih _ h
    · refine ih _ ?_
      rw [timeoutStep_find_ne (fun he => hhd he.symm)]
      exact h

/-- Folding sweep iterations never resurrects an id. -/
theorem foldl_timeout_none {cfg : Config} {co : CloseOracle}
    {getter : String → Option PricePair} {now : ℚ} {pid : ℕ}
    (l : List ℕ) (s : ExecState) (h : findPair s.openPositions pid = none) :
    findPair (List.foldl (timeoutStep cfg co getter now) s l).openPositions pid = none := by
  induction l generalizing s with
  | nil => exact h
  | cons hd tl ih =>
    rw [List.foldl_cons]
    exact ih _ (timeoutStep_find_none h)

/-- Folding sweep iterations preserves membership in the closed history. -/
theorem foldl_timeout_closed_mono {cfg : Config} {co : CloseOracle}
    {getter : String → Option PricePair} {now : ℚ} {x : PositionPair}
    (l : List ℕ) (s : ExecState) (hx : x ∈ s.closedPositions) :
    x ∈ (List.foldl (timeoutStep cfg co getter now) s l).closedPositions := by
  induction l generalizing s with
  | nil => exact hx
  | cons hd tl ih =>
    rw [List.foldl_cons]
    exact ih _ (timeoutStep_closed_mono hx)

/-! ## Spread-update lemmas -/

/-- Refreshing preserves the pair's id. -/
theorem refreshPair_id (pair : PositionPair) (buy sell : ℚ) :
    (refreshPair pair buy sell).id = pair.id := rfl

/-- An update iteration for an absent id is a no-op. -/
theorem updateStep_absent {cfg : Config} {co : CloseOracle} {now : ℚ} {symbol : String}
    {buy sell : ℚ} {s : ExecState} {pid : ℕ}
    (h : findPair s.openPositions pid = none) :
    updateStep cfg co now symbol buy sell s pid = s := by
  unfold updateStep
  rw [h]

/-- An update iteration skips pairs of other symbols or non-open pairs. -/
theorem updateStep_skip {cfg : Config} {co : CloseOracle} {now : ℚ} {symbol : String}
    {buy sell : ℚ} {s : ExecState} {pid : ℕ} {pair : PositionPair}
    (h : findPair s.openPositions pid = some pair)
    (hc : ¬ (pair.symbol = symbol ∧ pair.status = PositionStatus.OPEN)) :
    updateStep cfg co now symbol buy sell s pid = s := by
  unfold updateStep
  rw [h]
  dsimp only
  rw [if_neg hc]

/-- An update iteration of a matching open pair without convergence close
refreshes the pair in place. -/
theorem updateStep_refresh {cfg : Config} {co : CloseOracle} {now : ℚ} {symbol : String}
    {buy sell : ℚ} {s : ExecState} {pid : ℕ} {pair : PositionPair}
    (h : findPair s.openPositions pid = some pair)
    (hc : pair.symbol = symbol ∧ pair.status = PositionStatus.OPEN)
    (hnc : ¬ (cfg.closeOnSpreadConvergence && checkPriceConvergence cfg buy sell) = true) :
    updateStep cfg co now symbol buy sell s pid =
      { s with openPositions := replacePair s.openPositions pid (refreshPair pair buy sell) } := by
  unfold updateStep
  rw [h]
  dsimp only
  rw [if_pos hc, if_neg hnc]

/-- An update iteration of a matching open pair under convergence closes the
refreshed pair with reason `CONVERGENCE`. -/
theorem updateStep_closes {cfg : Config} {co : CloseOracle} {now : ℚ} {symbol : String}
    {buy sell : ℚ} {s : ExecState} {pid : ℕ} {pair : PositionPair}
    (h : findPair s.openPositions pid = some pair)
    (hc : pair.symbol = symbol ∧ pair.status = PositionStatus.OPEN)
    (hcv : (cfg.closeOnSpreadConvergence && checkPriceConvergence cfg buy sell) = true) :
    updateStep cfg co now symbol buy sell s pid =
      closePositionPair cfg co now pid CloseReason.CONVERGENCE buy sell
        { s with openPositions := replacePair s.openPositions pid (refreshPair pair buy sell) } := by
  unfold updateStep
  rw [h]
  dsimp only
  rw [if_pos hc, if_pos hcv]

/-- An update iteration of one id does not disturb lookups of another id. -/
theorem updateStep_find_ne {cfg : Config} {co : CloseOracle} {now : ℚ} {symbol : String}
    {buy sell : ℚ} {s : ExecState} {pid i : ℕ} (hne : i ≠ pid) :
    findPair (updateStep cfg co now symbol buy sell s pid).openPositions i =
      findPair s.openPositions i := by
  cases h : findPair s.openPositions pid with
  | none => rw [updateStep_absent h]
  | some pair =>
    have hid : (refreshPair pair buy sell).id = pid := by
      rw [refreshPair_id]
      exact findPair_id h
    by_cases hc : pair.symbol = symbol ∧ pair.status = PositionStatus.OPEN
    · by_cases hcv : (cfg.closeOnSpreadConvergence && checkPriceConvergence cfg buy sell) = true
      · rw [updateStep_closes h hc hcv, closePositionPair_find_ne hne]
        exact findPair_replace_ne hid hne
      · rw [updateStep_refresh h hc hcv]
        exact findPair_replace_ne hid hne
    · rw [updateStep_skip h hc]

/-- An update iteration never introduces an id into the open map. -/
theorem updateStep_find_none {cfg : Config} {co : CloseOracle} {now : ℚ} {symbol : String}
    {buy sell : ℚ} {s : ExecState} {pid i : ℕ}
    (h : findPair s.openPositions i = none) :
    findPair (updateStep cfg co now symbol buy sell s pid).openPositions i = none := by
  by_cases hip : i = pid
  · subst hip
    rw [updateStep_absent h]
    exact h
  · rw [updateStep_find_ne hip]
    exact h

/-- An update iteration never removes anything from the closed history. -/
theorem updateStep_closed_mono {cfg : Config} {co : CloseOracle} {now : ℚ} {symbol : String}
    {buy sell : ℚ} {s : ExecState} {pid : ℕ} {x : PositionPair}
    (hx : x ∈ s.closedPositions) :
    x ∈ (updateStep cfg co now symbol buy sell s pid).closedPositions := by
  cases h : findPair s.openPositions pid with
  | none =>
    rw [updateStep_absent h]
    exact hx
  | some pair =>
    by_cases hc : pair.symbol = symbol ∧ pair.status = PositionStatus.OPEN
    · by_cases hcv : (cfg.closeOnSpreadConvergence && checkPriceConvergence cfg buy sell) = true
      · rw [updateStep_closes h hc hcv]
        exact closePositionPair_closed_mono hx
      · rw [updateStep_refresh h hc hcv]
        exact hx
    · rw [updateStep_skip h hc]
      exact hx

/-- Folding update iterations over ids that avoid a present pair leaves its
lookup unchanged. -/
theorem foldl_update_pres {cfg : Config} {co : CloseOracle} {now : ℚ} {symbol : String}
    {buy sell : ℚ} {pid : ℕ} {pair : PositionPair}
    (l : List ℕ) (s : ExecState) (hl : pid ∉ l)
    (h : findPair s.openPositions pid = some pair) :
    findPair (List.foldl (updateStep cfg co now symbol buy sell) s l).openPositions pid =
      some pair := by
  induction l generalizing s with
  | nil => exact h
  | cons hd tl ih =>
    have hhd : pid ≠ hd := fun he => hl (he ▸ List.mem_cons_self hd tl)
    have htl : pid ∉ tl := fun he => hl (List.mem_cons_of_mem hd he)
    rw [List.foldl_cons]
    refine ih _ htl ?_
    rw [updateStep_find_ne hhd]
    exact h

/-- Folding update iterations never resurrects an id. -/
theorem foldl_update_none {cfg : Config} {co : CloseOracle} {now : ℚ} {symbol : String}
    {buy sell : ℚ} {pid : ℕ} (l : List ℕ) (s : ExecState)
    (h : findPair s.openPositions pid = none) :
    findPair (List.foldl (updateStep cfg co now symbol buy sell) s l).openPositions pid = none := by
  induction l generalizing s with
  | nil => exact h
  | cons hd tl ih =>
    rw [List.foldl_cons]
    exact ih _ (updateStep_find_none h)

/-- Folding update iterations preserves membership in the closed history. -/
theorem foldl_update_closed_mono {cfg : Config} {co : CloseOracle} {now : ℚ} {symbol : String}
    {buy sell : ℚ} {x : PositionPair} (l : List ℕ) (s : ExecState)
    (hx : x ∈ s.closedPositions) :
    x ∈ (List.foldl (updateStep cfg co now symbol buy sell) s l).closedPositions := by
  induction l generalizing s with
  | nil => exact hx
  | cons hd tl ih =>
    rw [List.foldl_cons]
    exact ih _ (updateStep_closed_mono hx)

/-! ## Claim C1 -/

/-- C1: at most one open `PositionPair` per symbol.  When an
`ArbitrageOpportunity` is handled while some open pair already covers the same
symbol, `handleNewOpportunity` returns with the state unchanged and records
nothing: in particular no second pair for that symbol is inserted into the
open-positions map. -/
theorem c1_one_pair_per_symbol (cfg : Config) (o : OpenOracle) (now : ℚ) (pid lid sid : ℕ)
    (opp : Opportunity) (s : ExecState)
    (h : ∃ pair ∈ s.openPositions, pair.symbol = opp.symbol) :
    handleNewOpportunity cfg o now pid lid sid opp s = (s, []) ∧
      (handleNewOpportunity cfg o now pid lid sid opp s).1.openPositions = s.openPositions := by
  have hany : s.openPositions.any (fun p => decide (p.symbol = opp.symbol)) = true := by
    rcases h with ⟨pair, hmem, hsym⟩
    exact List.any_eq_true.mpr ⟨pair, hmem, by simpa using hsym⟩
  constructor
  · unfold handleNewOpportunity
    rw [if_pos hany]
  · unfold handleNewOpportunity
    rw [if_pos hany]

/-- Witness for C1: a state with an open BTCUSDT pair rejects a fresh BTCUSDT
opportunity without touching the state. -/
theorem c1_one_pair_per_symbol_witness :
    let cfg : Config := ⟨true, true, 100, 3, 60, 1, 1/10, false, 0, 0, 0, 1/10, 1000⟩
    let s0 : ExecState :=
      { initialState cfg with openPositions := [samplePair 1 "BTCUSDT" 100 110 none] }
    let opp := sampleOpp "BTCUSDT" 100 110 none none
    handleNewOpportunity cfg okOracle 0 7 8 9 opp s0 = (s0, []) ∧
      (handleNewOpportunity cfg okOracle 0 7 8 9 opp s0).1.openPositions = s0.openPositions :=
  c1_one_pair_per_symbol _ _ _ _ _ _ _ _
    ⟨samplePair 1 "BTCUSDT" 100 110 none, List.mem_singleton.mpr rfl, rfl⟩

/-! ## Claim C3 -/

/-- `recordLeverageErrors` only appends trading errors. -/
theorem recordLeverageErrors_openPositions (o : OpenOracle) (now : ℚ) (opp : Opportunity)
    (s : ExecState) : (recordLeverageErrors o now opp s).openPositions = s.openPositions := by
  simp only [recordLeverageErrors, addError]
  repeat' split
  all_goals rfl

/-- `recordLeverageErrors` leaves the balance untouched. -/
theorem recordLeverageErrors_currentBalance (o : OpenOracle) (now : ℚ) (opp : Opportunity)
    (s : ExecState) : (recordLeverageErrors o now opp s).currentBalance = s.currentBalance := by
  simp only [recordLeverageErrors, addError]
  repeat' split
  all_goals rfl

/-- `recordLeverageErrors` leaves the single-flight counter untouched. -/
theorem recordLeverageErrors_pendingOrders (o : OpenOracle) (now : ℚ) (opp : Opportunity)
    (s : ExecState) : (recordLeverageErrors o now opp s).pendingOrders = s.pendingOrders := by
  simp only [recordLeverageErrors, addError]
  repeat' split
  all_goals rfl

/-- The exact outcome of a live open whose long leg fails: leverage errors
(if any) plus the `OPEN_LONG` error are recorded, the one order event is the
long leg, the skip handler is invoked with `ORDER_CREATION_FAILED`, and no
pair is inserted. -/
theorem openPositionPair_long_fails {cfg : Config} {o : OpenOracle} {now : ℚ}
    {pid lid sid : ℕ} {opp : Opportunity} {s : ExecState}
    (hlive : cfg.testMode = false)
    (hguard : s.pendingOrders = 0)
    (hcap : ¬ s.currentBalance < cfg.positionSizeUSD * 2)
    (hsize : ¬ 100 < cfg.positionSizeUSD)
    (hslots : ¬ cfg.maxOpenPositions ≤ s.openPositions.length)
    (hfail : o.longOk = false) :
    openPositionPair cfg o now pid lid sid opp s =
      (addError (recordLeverageErrors o now opp s)
        ⟨now, opp.symbol, ErrOp.OPEN_LONG, opp.buyExchange⟩,
       [Event.order ErrOp.OPEN_LONG, Event.skip SkipReason.ORDER_CREATION_FAILED]) := by
  have h1 : ¬ 0 < s.pendingOrders := by omega
  unfold openPositionPair
  rw [if_neg h1, if_neg hcap]
  dsimp only
  rw [hlive]
  simp only [Bool.false_eq_true, if_false]
  rw [if_neg hsize, if_neg hslots, if_pos hfail]

/-- C3: in live mode, a failed long leg aborts the whole open: the
`TradingError` with operation `OPEN_LONG` is recorded, the skip handler is
invoked with `ORDER_CREATION_FAILED`, the short leg order is never placed
(the event trace is exactly the long-leg attempt followed by the skip), no
`PositionPair` is inserted, and balance and guard are unchanged. -/
theorem c3_long_leg_failure_aborts (cfg : Config) (o : OpenOracle) (now : ℚ)
    (pid lid sid : ℕ) (opp : Opportunity) (s : ExecState)
    (hlive : cfg.testMode = false)
    (hguard : s.pendingOrders = 0)
    (hcap : ¬ s.currentBalance < cfg.positionSizeUSD * 2)
    (hsize : ¬ 100 < cfg.positionSizeUSD)
    (hslots : ¬ cfg.maxOpenPositions ≤ s.openPositions.length)
    (hfail : o.longOk = false) :
    (openPositionPair cfg o now pid lid sid opp s).1.openPositions = s.openPositions ∧
    (openPositionPair cfg o now pid lid sid opp s).1.currentBalance = s.currentBalance ∧
    (openPositionPair cfg o now pid lid sid opp s).1.pendingOrders = s.pendingOrders ∧
    (⟨now, opp.symbol, ErrOp.OPEN_LONG, opp.buyExchange⟩ : TradingError) ∈
      (openPositionPair cfg o now pid lid sid opp s).1.tradingErrors ∧
    (openPositionPair cfg o now pid lid sid opp s).2 =
      [Event.order ErrOp.OPEN_LONG, Event.skip SkipReason.ORDER_CREATION_FAILED] ∧
    Event.order ErrOp.OPEN_SHORT ∉ (openPositionPair cfg o now pid lid sid opp s).2 := by
  rw [openPositionPair_long_fails hlive hguard hcap hsize hslots hfail]
  refine ⟨?_, ?_, ?_, ?_, rfl, ?_⟩
  · show (addError _ _).openPositions = s.openPositions
    simp only [addError]
    exact recordLeverageErrors_openPositions o now opp s
  · show (addError _ _).currentBalance = s.currentBalance
    simp only [addError]
    exact recordLeverageErrors_currentBalance o now opp s
  · show (addError _ _).pendingOrders = s.pendingOrders
    simp only [addError]
    exact recordLeverageErrors_pendingOrders o now opp s
  · show _ ∈ (addError _ _).tradingErrors
    simp only [addError]
    exact List.mem_append_right _ (List.mem_singleton.mpr rfl)
  · intro hmem
    simp at hmem

/-- Witness for C3 at a concrete live configuration and a failing long leg. -/
theorem c3_long_leg_failure_aborts_witness :
    let cfg : Config := ⟨false, true, 50, 3, 60, 1, 1/10, false, 0, 0, 0, 1/10, 1000⟩
    let s0 := initialState cfg
    let opp := sampleOpp "ETHUSDT" 100 110 none none
    let o : OpenOracle := ⟨true, true, false, true, some 400, some 500⟩
    (openPositionPair cfg o 5 7 8 9 opp s0).1.openPositions = s0.openPositions ∧
    (openPositionPair cfg o 5 7 8 9 opp s0).1.currentBalance = s0.currentBalance ∧
    (openPositionPair cfg o 5 7 8 9 opp s0).1.pendingOrders = s0.pendingOrders ∧
    (⟨5, "ETHUSDT", ErrOp.OPEN_LONG, Exchange.binance⟩ : TradingError) ∈
      (openPositionPair cfg o 5 7 8 9 opp s0).1.tradingErrors ∧
    (openPositionPair cfg o 5 7 8 9 opp s0).2 =
      [Event.order ErrOp.OPEN_LONG, Event.skip SkipReason.ORDER_CREATION_FAILED] ∧
    Event.order ErrOp.OPEN_SHORT ∉ (openPositionPair cfg o 5 7 8 9 opp s0).2 :=
  c3_long_leg_failure_aborts _ _ 5 7 8 9 _ _ rfl rfl (by norm_num [initialState])
    (by norm_num) (by norm_num [initialState]) rfl

/-! ## Claim C5 -/

/-- The exact outcome of a live open whose two legs succeed. -/
theorem openPositionPair_live_success {cfg : Config} {o : OpenOracle} {now : ℚ}
    {pid lid sid : ℕ} {opp : Opportunity} {s : ExecState}
    (hlive : cfg.testMode = false)
    (hguard : s.pendingOrders = 0)
    (hcap : ¬ s.currentBalance < cfg.positionSizeUSD * 2)
    (hsize : ¬ 100 < cfg.positionSizeUSD)
    (hslots : ¬ cfg.maxOpenPositions ≤ s.openPositions.length)
    (hlong : o.longOk = true) (hshort : o.shortOk = true) :
    openPositionPair cfg o now pid lid sid opp s =
      (reconcileBalance now opp.symbol o.binBalance o.mexcBalance
        { recordLeverageErrors o now opp s with
          lastOrderTime := now,
          openPositions := (recordLeverageErrors o now opp s).openPositions ++
            [mkPositionPair cfg now pid lid sid opp] },
       [Event.order ErrOp.OPEN_LONG, Event.order ErrOp.OPEN_SHORT]) := by
  have h1 : ¬ 0 < s.pendingOrders := by omega
  unfold openPositionPair
  rw [if_neg h1, if_neg hcap]
  dsimp only
  rw [hlive]
  simp only [Bool.false_eq_true, if_false]
  rw [if_neg hsize, if_neg hslots,
    if_neg (by simp [hlong]), if_neg (by simp [hshort])]

/-- C5 (amended): the single-flight guard protects the open path: whenever
`pendingOrders` is nonzero, `openPositionPair` skips with
`RATE_LIMIT_PENDING` and leaves the state untouched.  The close path however
never raises `pendingOrders`: a close sequence runs with the guard at its old
value throughout, so the guard cannot stop a second sequence from starting
during a close (see the counterexample). -/
theorem c5_single_flight_guard (cfg : Config) (o : OpenOracle) (now : ℚ) (pid lid sid : ℕ)
    (opp : Opportunity) (s : ExecState) (h : 0 < s.pendingOrders) :
    openPositionPair cfg o now pid lid sid opp s =
        (s, [Event.skip SkipReason.RATE_LIMIT_PENDING]) ∧
      ∀ (co : CloseOracle) (now2 buy sell : ℚ) (pid2 : ℕ) (reason : CloseReason)
        (s2 : ExecState),
        (closePositionPair cfg co now2 pid2 reason buy sell s2).pendingOrders =
          s2.pendingOrders := by
  constructor
  · unfold openPositionPair
    rw [if_pos h]
  · intro co now2 buy sell pid2 reason s2
    exact closePositionPair_pendingOrders cfg co now2 pid2 reason buy sell s2

/-- Witness for C5 (amended) at a concrete state with one order in flight. -/
theorem c5_single_flight_guard_witness :
    let cfg : Config := ⟨false, true, 50, 2, 60, 1, 1/10, false, 0, 0, 0, 1/10, 1000⟩
    let s1 : ExecState := { initialState cfg with pendingOrders := 1 }
    openPositionPair cfg okOracle 0 7 8 9 (sampleOpp "AAAUSDT" 100 110 none none) s1 =
        (s1, [Event.skip SkipReason.RATE_LIMIT_PENDING]) ∧
      ∀ (co : CloseOracle) (now2 buy sell : ℚ) (pid2 : ℕ) (reason : CloseReason)
        (s2 : ExecState),
        (closePositionPair cfg co now2 pid2 reason buy sell s2).pendingOrders =
          s2.pendingOrders :=
  c5_single_flight_guard _ _ _ _ _ _ _ _ (by norm_num [initialState])

/-- C5 counterexample to the no-interleaving conjunct as stated.  Live mode;
the close of pair 1 has started: `closeMark` (everything the source runs
before its first remote leg-close call) has mutated the pair, and the close
sequence is suspended awaiting the venue.  The intermediate state `m` has
`pendingOrders = 0`, so a second sequence — an open for another symbol —
started during the suspension is NOT skipped with `RATE_LIMIT_PENDING`: it
runs to completion, inserts a second pair into the ledger (2 open entries)
and rewrites the balance from 1000 to the reconciled 400, all strictly
between the start and the end of the close sequence. -/
theorem c5_interleaving_counterexample :
    let cfg : Config := ⟨false, true, 50, 2, 60, 1, 1/10, false, 0, 0, 0, 1/10, 1000⟩
    let s0 : ExecState :=
      { initialState cfg with openPositions := [samplePair 1 "AAAUSDT" 100 110 (some 1000)] }
    let m := closeMark cfg 10 1 CloseReason.MANUAL 100 110 s0
    let opened := openPositionPair cfg okOracle 10 2 3 4
      (sampleOpp "BBBUSDT" 100 110 none none) m
    m.pendingOrders = 0 ∧
      (findPair m.openPositions 1).isSome = true ∧
      opened.2 = [Event.order ErrOp.OPEN_LONG, Event.order ErrOp.OPEN_SHORT] ∧
      Event.skip SkipReason.RATE_LIMIT_PENDING ∉ opened.2 ∧
      opened.1.openPositions.length = 2 ∧
      m.currentBalance = 1000 ∧
      opened.1.currentBalance = 400 := by
  intro cfg s0 m opened
  have hfind : findPair s0.openPositions 1 =
      some (samplePair 1 "AAAUSDT" 100 110 (some 1000)) := by
    simp [s0, initialState, findPair, samplePair]
  have hm : m.openPositions = [markPair cfg 10 CloseReason.MANUAL 100 110
      (samplePair 1 "AAAUSDT" 100 110 (some 1000))] := by
    rw [show m = closeMark cfg 10 1 CloseReason.MANUAL 100 110 s0 from rfl,
      closeMark_openPositions_found hfind]
    simp [s0, initialState, replacePair, samplePair]
  have hmbal : m.currentBalance = 1000 := by
    rw [show m = closeMark cfg 10 1 CloseReason.MANUAL 100 110 s0 from rfl,
      closeMark_currentBalance]
    rfl
  have hmpend : m.pendingOrders = 0 := by
    rw [show m = closeMark cfg 10 1 CloseReason.MANUAL 100 110 s0 from rfl,
      closeMark_pendingOrders]
    rfl
  have hopen : opened = openPositionPair cfg okOracle 10 2 3 4
      (sampleOpp "BBBUSDT" 100 110 none none) m := rfl
  have hlen : m.openPositions.length = 1 := by rw [hm]; rfl
  have hsucc := @openPositionPair_live_success cfg okOracle 10 2 3 4
    (sampleOpp "BBBUSDT" 100 110 none none) m
    rfl hmpend (by rw [hmbal]; norm_num [cfg]) (by norm_num [cfg])
    (by rw [hlen]; norm_num [cfg]) rfl rfl
  have hlev : recordLeverageErrors okOracle 10 (sampleOpp "BBBUSDT" 100 110 none none) m = m := by
    simp [recordLeverageErrors, okOracle]
  refine ⟨hmpend, ?_, ?_, ?_, ?_, hmbal, ?_⟩
  · rw [hm]
    simp [findPair, markPair, samplePair]
  · rw [hopen, hsucc]
  · rw [hopen, hsucc]
    simp
  · rw [hopen, hsucc]
    simp only [reconcileBalance_openPositions]
    rw [hlev, hm]
    rfl
  · rw [hopen, hsucc]
    simp only [okOracle]
    simp [reconcileBalance]
    norm_num

/-! ## Claim C7 -/

/-- C7: the periodic sweep closes an open pair with reason `TIMEOUT` and
status `TIMEOUT_CLOSED` exactly when the absolute deadline has been reached
(`now >= timeoutAt`), never earlier; a pair with the unbounded sentinel
deadline is never timeout-closed, and the deadline constructed by
`openPositionPair` is the unbounded sentinel exactly when the configured
`positionTimeoutSeconds` is zero. -/
theorem c7_timeout_exactly_at_deadline (cfg : Config) (co : CloseOracle)
    (getter : String → Option PricePair) (now : ℚ) (s : ExecState) (pid : ℕ)
    (pair : PositionPair) (pr : PricePair)
    (hNodup : (s.openPositions.map (fun p => p.id)).Nodup)
    (hfind : findPair s.openPositions pid = some pair)
    (hget : getter pair.symbol = some pr) :
    (∀ tA, pair.timeoutAt = some tA → tA ≤ now →
      findPair (checkPositionTimeouts cfg co getter now s).openPositions pid = none ∧
      ∃ p' ∈ (checkPositionTimeouts cfg co getter now s).closedPositions,
        p'.id = pair.id ∧ p'.closeReason = some CloseReason.TIMEOUT ∧
        p'.status = PositionStatus.TIMEOUT_CLOSED) ∧
    (∀ tA, pair.timeoutAt = some tA → ¬ tA ≤ now →
      findPair (checkPositionTimeouts cfg co getter now s).openPositions pid = some pair) ∧
    (pair.timeoutAt = none →
      findPair (checkPositionTimeouts cfg co getter now s).openPositions pid = some pair) ∧
    (∀ t : ℚ, mkTimeoutAt cfg t = none ↔ cfg.positionTimeoutSeconds = 0) := by
  have hid : pair.id = pid := findPair_id hfind
  have hmem : pid ∈ s.openPositions.map (fun p => p.id) :=
    List.mem_map.mpr ⟨pair, findPair_mem hfind, hid⟩
  refine ⟨?_, ?_, ?_, ?_⟩
  · intro tA ht hle
    obtain ⟨l1, l2, hsplit⟩ := List.append_of_mem hmem
    have hnd : (l1 ++ pid :: l2).Nodup := hsplit ▸ hNodup
    rw [List.nodup_append] at hnd
    have hpid1 : pid ∉ l1 := fun hin => hnd.2.2 hin (List.mem_cons_self pid l2)
    have hpid2 : pid ∉ l2 := (List.nodup_cons.mp hnd.2.1).1
    unfold checkPositionTimeouts
    rw [hsplit, List.foldl_append, List.foldl_cons]
    have hpres := @foldl_timeout_pres cfg co getter now pid pair l1 s hpid1 hfind
    rw [timeoutStep_closes hpres ht hle hget]
    constructor
    · exact foldl_timeout_none l2 _ (closePositionPair_find_self _ _ _ _ _ _ _ _)
    · refine ⟨markPair cfg now CloseReason.TIMEOUT pr.buyPrice pr.sellPrice pair, ?_, ?_, ?_, ?_⟩
      · refine foldl_timeout_closed_mono l2 _ ?_
        rw [closePositionPair_closed hpres]
        exact List.mem_append_right _ (List.mem_singleton.mpr rfl)
      · rw [markPair_id]
      · rw [markPair_closeReason]
      · rw [markPair_status, if_pos rfl]
  · intro tA ht hlt
    exact foldl_timeout_blocked _ _ hfind (Or.inr (Or.inl ⟨tA, ht, hlt⟩))
  · intro ht
    exact foldl_timeout_blocked _ _ hfind (Or.inl ht)
  · intro t
    unfold mkTimeoutAt
    by_cases h0 : cfg.positionTimeoutSeconds = 0
    · simp [h0]
    · simp [h0]

/-- Witness for C7: one open pair with deadline 5, swept at time 10 with
prices available. -/
theorem c7_timeout_exactly_at_deadline_witness :
    let cfg : Config := ⟨true, true, 100, 3, 60, 1, 1/10, false, 0, 0, 0, 1/10, 1000⟩
    let pair := samplePair 1 "BTCUSDT" 100 110 (some 5)
    let s0 : ExecState := { initialState cfg with openPositions := [pair] }
    let getter : String → Option PricePair := fun _ => some ⟨100, 110⟩
    (∀ tA, pair.timeoutAt = some tA → tA ≤ 10 →
      findPair (checkPositionTimeouts cfg okCloseOracle getter 10 s0).openPositions 1 = none ∧
      ∃ p' ∈ (checkPositionTimeouts cfg okCloseOracle getter 10 s0).closedPositions,
        p'.id = pair.id ∧ p'.closeReason = some CloseReason.TIMEOUT ∧
        p'.status = PositionStatus.TIMEOUT_CLOSED) ∧
    (∀ tA, pair.timeoutAt = some tA → ¬ tA ≤ 10 →
      findPair (checkPositionTimeouts cfg okCloseOracle getter 10 s0).openPositions 1 =
        some pair) ∧
    (pair.timeoutAt = none →
      findPair (checkPositionTimeouts cfg okCloseOracle getter 10 s0).openPositions 1 =
        some pair) ∧
    (∀ t : ℚ, mkTimeoutAt cfg t = none ↔ cfg.positionTimeoutSeconds = 0) :=
  c7_timeout_exactly_at_deadline _ _ _ 10 _ 1 _ ⟨100, 110⟩
    (by simp [initialState, samplePair])
    (by simp [findPair, samplePair, samplePosition, initialState])
    rfl

/-! ## Claim C10 -/

/-- A sweep over a ledger in which no open pair has current prices is the
identity on the whole executor state. -/
theorem foldl_timeout_all_no_prices {cfg : Config} {co : CloseOracle}
    {getter : String → Option PricePair} {now : ℚ} (l : List ℕ) (s : ExecState)
    (h : ∀ p ∈ s.openPositions, getter p.symbol = none) :
    List.foldl (timeoutStep cfg co getter now) s l = s := by
  induction l with
  | nil => rfl
  | cons hd tl ih =>
    rw [List.foldl_cons]
    have hstep : timeoutStep cfg co getter now s hd = s := by
      cases hf : findPair s.openPositions hd with
      | none => exact timeoutStep_absent hf
      | some p => exact timeoutStep_no_prices hf (h p (findPair_mem hf))
    rw [hstep]
    exact ih

/-- C10: when the timeout sweep meets an open pair whose deadline has passed
but whose symbol has no current prices, it performs no close for that pair:
the pair stays in the open map with all its fields intact, and when every open
pair lacks prices the whole state — balance and statistics included — is left
exactly as it was (so the pair will be re-examined by a later sweep). -/
theorem c10_sweep_without_prices_is_frame (cfg : Config) (co : CloseOracle)
    (getter : String → Option PricePair) (now : ℚ) (s : ExecState) (pid : ℕ)
    (pair : PositionPair) (tA : ℚ)
    (hfind : findPair s.openPositions pid = some pair)
    (ht : pair.timeoutAt = some tA) (hdue : tA ≤ now)
    (hget : getter pair.symbol = none) :
    findPair (checkPositionTimeouts cfg co getter now s).openPositions pid = some pair ∧
    ((∀ p ∈ s.openPositions, getter p.symbol = none) →
      checkPositionTimeouts cfg co getter now s = s) := by
  constructor
  · exact foldl_timeout_blocked _ _ hfind (Or.inr (Or.inr hget))
  · intro hall
    exact foldl_timeout_all_no_prices _ _ hall

/-- Witness for C10: one overdue pair, price getter empty. -/
theorem c10_sweep_without_prices_is_frame_witness :
    let cfg : Config := ⟨true, true, 100, 3, 60, 1, 1/10, false, 0, 0, 0, 1/10, 1000⟩
    let pair := samplePair 1 "BTCUSDT" 100 110 (some 5)
    let s0 : ExecState := { initialState cfg with openPositions := [pair] }
    let getter : String → Option PricePair := fun _ => none
    findPair (checkPositionTimeouts cfg okCloseOracle getter 10 s0).openPositions 1 =
        some pair ∧
      ((∀ p ∈ s0.openPositions, getter p.symbol = none) →
        checkPositionTimeouts cfg okCloseOracle getter 10 s0 = s0) :=
  c10_sweep_without_prices_is_frame _ _ _ 10 _ 1 _ 5
    (by simp [findPair, samplePair, samplePosition, initialState])
    rfl (by norm_num) rfl

/-! ## Claim C8 -/

/-- C8: on a live price update for a symbol with an open pair, when the
cross-venue divergence of the current prices
(`|p1 - p2| / min(p1,p2) * 100`, computed from the prices, not from the
spread) is at or below the configured convergence threshold and the
convergence-close feature is on, the pair is closed within that very update:
it leaves the open map and joins the closed history with reason `CONVERGENCE`
and status `CLOSED` — regardless of how large `openSpread` was (the pair's
open spread is arbitrary here). -/
theorem c8_convergence_closes_pair (cfg : Config) (co : CloseOracle) (now : ℚ)
    (symbol : String) (buy sell : ℚ) (s : ExecState) (pid : ℕ) (pair : PositionPair)
    (hNodup : (s.openPositions.map (fun p => p.id)).Nodup)
    (hfind : findPair s.openPositions pid = some pair)
    (hsym : pair.symbol = symbol)
    (hopen : pair.status = PositionStatus.OPEN)
    (hflag : cfg.closeOnSpreadConvergence = true)
    (hconv : |buy - sell| / min buy sell * 100 ≤ cfg.priceConvergencePercent) :
    findPair (updatePositionSpread cfg co now symbol buy sell s).openPositions pid = none ∧
    ∃ p' ∈ (updatePositionSpread cfg co now symbol buy sell s).closedPositions,
      p'.id = pair.id ∧ p'.closeReason = some CloseReason.CONVERGENCE ∧
      p'.status = PositionStatus.CLOSED := by
  have hid : pair.id = pid := findPair_id hfind
  have hcv : (cfg.closeOnSpreadConvergence && checkPriceConvergence cfg buy sell) = true := by
    rw [hflag, Bool.true_and]
    exact decide_eq_true hconv
  have hmem : pid ∈ s.openPositions.map (fun p => p.id) :=
    List.mem_map.mpr ⟨pair, findPair_mem hfind, hid⟩
  obtain ⟨l1, l2, hsplit⟩ := List.append_of_mem hmem
  have hnd : (l1 ++ pid :: l2).Nodup := hsplit ▸ hNodup
  rw [List.nodup_append] at hnd
  have hpid1 : pid ∉ l1 := fun hin => hnd.2.2 hin (List.mem_cons_self pid l2)
  unfold updatePositionSpread
  rw [hsplit, List.foldl_append, List.foldl_cons]
  have hpres := @foldl_update_pres cfg co now symbol buy sell pid pair l1 s hpid1 hfind
  rw [updateStep_closes hpres ⟨hsym, hopen⟩ hcv]
  have hrid : (refreshPair pair buy sell).id = pid := by rw [refreshPair_id]; exact hid
  have hfind2 : findPair (replacePair (List.foldl
      (updateStep cfg co now symbol buy sell) s l1).openPositions pid
      (refreshPair pair buy sell)) pid = some (refreshPair pair buy sell) :=
    findPair_replace_self hpres hrid
  constructor
  · exact foldl_update_none l2 _ (closePositionPair_find_self _ _ _ _ _ _ _ _)
  · refine ⟨markPair cfg now CloseReason.CONVERGENCE buy sell (refreshPair pair buy sell),
      ?_, ?_, ?_, ?_⟩
    · refine foldl_update_closed_mono l2 _ ?_
      rw [closePositionPair_closed hfind2]
      exact List.mem_append_right _ (List.mem_singleton.mpr rfl)
    · rw [markPair_id, refreshPair_id]
    · rw [markPair_closeReason]
    · rw [markPair_status, if_neg (by decide)]

/-- Witness for C8: an open pair whose venues quote the same price (zero
divergence) under a 0.1% convergence threshold and a large open spread. -/
theorem c8_convergence_closes_pair_witness :
    let cfg : Config := ⟨true, true, 100, 3, 60, 1, 1/10, true, 0, 0, 0, 1/10, 1000⟩
    let pair := samplePair 1 "BTCUSDT" 100 110 (some 1000)
    let s0 : ExecState := { initialState cfg with openPositions := [pair] }
    findPair (updatePositionSpread cfg okCloseOracle 10 "BTCUSDT" 100 100 s0).openPositions 1 =
        none ∧
      ∃ p' ∈ (updatePositionSpread cfg okCloseOracle 10 "BTCUSDT" 100 100 s0).closedPositions,
        p'.id = pair.id ∧ p'.closeReason = some CloseReason.CONVERGENCE ∧
        p'.status = PositionStatus.CLOSED :=
  c8_convergence_closes_pair _ _ 10 _ 100 100 _ 1 _
    (by simp [initialState, samplePair])
    (by simp [findPair, samplePair, samplePosition, initialState])
    rfl rfl rfl (by norm_num)

/-! ## Claim C2 -/

/-- Full fill for an optional visible quantity (the `undefined` case uses the
default $10,000 depth). -/
theorem calculateExecutionPrice_fullOpt (cfg : Config) (r q : ℚ) (aq : Option ℚ)
    (h : r ≤ (aq.getD (10000 / q)) * q) :
    calculateExecutionPrice cfg r q aq = ⟨q, 0, true⟩ := by
  cases aq with
  | none =>
    unfold calculateExecutionPrice
    dsimp only
    rw [if_pos (by simpa using h)]
  | some vq => exact calculateExecutionPrice_full cfg r q vq (by simpa using h)

/-- With zero configured slippage the penalty price equals the quoted price,
so the simulator returns the quoted price for any visible depth (the blend of
two equal tranche prices), for any nonzero requested notional. -/
theorem calculateExecutionPrice_zeroSlip (cfg : Config) (r q : ℚ) (aq : Option ℚ)
    (hslip : cfg.slippagePercent = 0) (hr : r ≠ 0) :
    (calculateExecutionPrice cfg r q aq).avgPrice = q := by
  unfold calculateExecutionPrice
  dsimp only
  split
  · rfl
  · dsimp only
    rw [hslip]
    field_simp
    ring

/-- The exact outcome of a successful test-mode open: the pair is appended and
the balance debited by the required capital. -/
theorem openPositionPair_test_success {cfg : Config} {o : OpenOracle} {now : ℚ}
    {pid lid sid : ℕ} {opp : Opportunity} {s : ExecState}
    (htm : cfg.testMode = true) (hguard : s.pendingOrders = 0)
    (hcap : ¬ s.currentBalance < cfg.positionSizeUSD * 2) :
    openPositionPair cfg o now pid lid sid opp s =
      ({ s with
          openPositions := s.openPositions ++ [mkPositionPair cfg now pid lid sid opp],
          currentBalance := s.currentBalance - cfg.positionSizeUSD * 2 }, []) := by
  have h1 : ¬ 0 < s.pendingOrders := by omega
  unfold openPositionPair
  rw [if_neg h1, if_neg hcap]
  dsimp only
  rw [htm, if_pos rfl]

/-- C2 (amended): in simulated mode a successful open debits exactly
`2 * positionSizeUSD`; every close credits exactly
`2 * positionSizeUSD + totalPnlUSD`; and an open/close round trip at unchanged
prices with zero configured fees restores the starting balance provided each
entry leg fills fully at the quoted price (sufficient visible depth) **or the
configured slippage is zero** — with actual entry slippage the stored entry
prices differ from the quotes and the round trip does not return to the start
(see the counterexample). -/
theorem c2_simulated_balance_accounting (cfg : Config) (o : OpenOracle) (co : CloseOracle)
    (now now2 : ℚ) (pid lid sid : ℕ) (opp : Opportunity) (s : ExecState) (reason : CloseReason)
    (htm : cfg.testMode = true)
    (hguard : s.pendingOrders = 0)
    (hcap : ¬ s.currentBalance < cfg.positionSizeUSD * 2) :
    (openPositionPair cfg o now pid lid sid opp s).1.currentBalance =
        s.currentBalance - cfg.positionSizeUSD * 2 ∧
      (∀ (pid2 : ℕ) (pair : PositionPair) (buy sell : ℚ),
        findPair s.openPositions pid2 = some pair →
        (closePositionPair cfg co now2 pid2 reason buy sell s).currentBalance =
          s.currentBalance + (cfg.positionSizeUSD * 2 + pairPnlUSD cfg pair buy sell)) ∧
      (cfg.binanceTaker = 0 → cfg.mexcTaker = 0 →
        findPair s.openPositions pid = none →
        (cfg.positionSizeUSD ≤ (opp.buyQtyAvailable.getD (10000 / opp.buyPrice)) * opp.buyPrice ∨
          cfg.slippagePercent = 0) →
        (cfg.positionSizeUSD ≤
            (opp.sellQtyAvailable.getD (10000 / opp.sellPrice)) * opp.sellPrice ∨
          cfg.slippagePercent = 0) →
        (closePositionPair cfg co now2 pid reason opp.buyPrice opp.sellPrice
          (openPositionPair cfg o now pid lid sid opp s).1).currentBalance =
            s.currentBalance) := by
  refine ⟨?_, ?_, ?_⟩
  · rw [openPositionPair_test_success htm hguard hcap]
  · intro pid2 pair buy sell hfind
    exact closePositionPair_balance_test htm hfind
  · intro hbf hmf hfresh hlf hsf
    rw [openPositionPair_test_success htm hguard hcap]
    have hfind1 : findPair ({ s with
        openPositions := s.openPositions ++ [mkPositionPair cfg now pid lid sid opp],
        currentBalance := s.currentBalance - cfg.positionSizeUSD * 2 } :
          ExecState).openPositions pid = some (mkPositionPair cfg now pid lid sid opp) := by
      show findPair (s.openPositions ++ [mkPositionPair cfg now pid lid sid opp]) pid = _
      rw [findPair_append, hfresh]
      simp [findPair]
      rfl
    rw [@closePositionPair_balance_test cfg co now2 pid reason opp.buyPrice opp.sellPrice
      _ _ htm hfind1]
    have hpnl : pairPnlUSD cfg (mkPositionPair cfg now pid lid sid opp)
        opp.buyPrice opp.sellPrice = 0 := by
      by_cases hr : cfg.positionSizeUSD = 0
      · unfold pairPnlUSD
        rw [hr]
        ring
      · have hlong : (mkPositionPair cfg now pid lid sid opp).longPosition.entryPrice =
            opp.buyPrice := by
          show (calculateExecutionPrice cfg cfg.positionSizeUSD opp.buyPrice
            opp.buyQtyAvailable).avgPrice = opp.buyPrice
          rcases hlf with hlf | hslip0
          · rw [calculateExecutionPrice_fullOpt cfg _ _ _ hlf]
          · exact calculateExecutionPrice_zeroSlip cfg _ _ _ hslip0 hr
        have hshort : (mkPositionPair cfg now pid lid sid opp).shortPosition.entryPrice =
            opp.sellPrice := by
          show (calculateExecutionPrice cfg cfg.positionSizeUSD opp.sellPrice
            opp.sellQtyAvailable).avgPrice = opp.sellPrice
          rcases hsf with hsf | hslip0
          · rw [calculateExecutionPrice_fullOpt cfg _ _ _ hsf]
          · exact calculateExecutionPrice_zeroSlip cfg _ _ _ hslip0 hr
        unfold pairPnlUSD pairPnlPercent
        rw [hlong, hshort, hbf, hmf]
        simp
    rw [hpnl]
    show s.currentBalance - cfg.positionSizeUSD * 2 + (cfg.positionSizeUSD * 2 + 0) =
      s.currentBalance
    ring

/-- Witness for C2 at a zero-fee test configuration with full-depth fills. -/
theorem c2_simulated_balance_accounting_witness :
    let cfg : Config := ⟨true, true, 100, 3, 60, 1, 1/10, false, 0, 0, 1, 0, 1000⟩
    let opp := sampleOpp "AAAUSDT" 100 110 (some 10) (some 10)
    let s0 := initialState cfg
    (openPositionPair cfg okOracle 0 1 2 3 opp s0).1.currentBalance =
        s0.currentBalance - cfg.positionSizeUSD * 2 ∧
      (∀ (pid2 : ℕ) (pair : PositionPair) (buy sell : ℚ),
        findPair s0.openPositions pid2 = some pair →
        (closePositionPair cfg okCloseOracle 5 pid2 CloseReason.MANUAL buy sell
          s0).currentBalance =
          s0.currentBalance + (cfg.positionSizeUSD * 2 + pairPnlUSD cfg pair buy sell)) ∧
      (cfg.binanceTaker = 0 → cfg.mexcTaker = 0 →
        findPair s0.openPositions 1 = none →
        (cfg.positionSizeUSD ≤ (opp.buyQtyAvailable.getD (10000 / opp.buyPrice)) * opp.buyPrice ∨
          cfg.slippagePercent = 0) →
        (cfg.positionSizeUSD ≤
            (opp.sellQtyAvailable.getD (10000 / opp.sellPrice)) * opp.sellPrice ∨
          cfg.slippagePercent = 0) →
        (closePositionPair cfg okCloseOracle 5 1 CloseReason.MANUAL opp.buyPrice opp.sellPrice
          (openPositionPair cfg okOracle 0 1 2 3 opp s0).1).currentBalance =
            s0.currentBalance) :=
  c2_simulated_balance_accounting _ _ _ 0 5 1 2 3 _ _ CloseReason.MANUAL rfl rfl
    (by norm_num [initialState])

/-- C2 counterexample to the unqualified round-trip conjunct: zero configured
fees, 1% slippage configuration, unchanged prices, but the short leg only has
$55 of visible depth against a $100 notional.  The short entry is simulated at
110.495 rather than 110, so the round trip ends at 1000 + 9900/22099 dollars,
not at the starting 1000. -/
theorem c2_round_trip_counterexample :
    let cfg : Config := ⟨true, true, 100, 3, 60, 1, 1/10, false, 0, 0, 1, 0, 1000⟩
    let opp := sampleOpp "AAAUSDT" 100 110 (some 10) (some (1/2))
    let s0 := initialState cfg
    let s1 := (openPositionPair cfg okOracle 0 1 2 3 opp s0).1
    (closePositionPair cfg okCloseOracle 5 1 CloseReason.MANUAL 100 110 s1).currentBalance ≠
      1000 := by
  intro cfg opp s0 s1
  have hopen := @openPositionPair_test_success cfg okOracle 0 1 2 3 opp s0 rfl rfl
    (by norm_num [initialState, s0, cfg])
  have hs1 : s1 = { s0 with
      openPositions := s0.openPositions ++ [mkPositionPair cfg 0 1 2 3 opp],
      currentBalance := s0.currentBalance - cfg.positionSizeUSD * 2 } := by
    show (openPositionPair cfg okOracle 0 1 2 3 opp s0).1 = _
    rw [hopen]
  have hfind : findPair s1.openPositions 1 = some (mkPositionPair cfg 0 1 2 3 opp) := by
    rw [hs1]
    show findPair (s0.openPositions ++ [mkPositionPair cfg 0 1 2 3 opp]) 1 = _
    rw [findPair_append]
    simp [s0, initialState, findPair]
    rfl
  rw [closePositionPair_balance_test rfl hfind]
  have hbal : s1.currentBalance = 800 := by
    rw [hs1]
    show s0.currentBalance - cfg.positionSizeUSD * 2 = 800
    norm_num [s0, initialState, cfg]
  rw [hbal]
  have hlong : (mkPositionPair cfg 0 1 2 3 opp).longPosition.entryPrice = 100 := by
    show (calculateExecutionPrice cfg 100 100 (some 10)).avgPrice = 100
    rw [calculateExecutionPrice_full cfg 100 100 10 (by norm_num)]
  have hshort : (mkPositionPair cfg 0 1 2 3 opp).shortPosition.entryPrice = 22099/200 := by
    show (calculateExecutionPrice cfg 100 110 (some (1/2))).avgPrice = 22099/200
    rw [calculateExecutionPrice_shortDepth cfg 100 110 (1/2) (by norm_num)]
    norm_num [cfg]
  have hpnl : pairPnlUSD cfg (mkPositionPair cfg 0 1 2 3 opp) 100 110 = 9900/22099 := by
    unfold pairPnlUSD pairPnlPercent
    rw [hlong, hshort]
    norm_num [cfg]
  rw [hpnl]
  norm_num [cfg]

/-! ## Claim C9 -/

/-- The open path emits only order and skip events, never an opportunity. -/
theorem oppEvents_openPositionPair (cfg : Config) (o : OpenOracle) (now : ℚ)
    (pid lid sid : ℕ) (opp : Opportunity) (s : ExecState) :
    oppEvents (openPositionPair cfg o now pid lid sid opp s).2 = [] := by
  simp only [openPositionPair]
  repeat' split
  all_goals rfl

/-- The opportunity gate emits only skip events, never an opportunity. -/
theorem oppEvents_handleNewOpportunity (cfg : Config) (o : OpenOracle) (now : ℚ)
    (pid lid sid : ℕ) (opp : Opportunity) (s : ExecState) :
    oppEvents (handleNewOpportunity cfg o now pid lid sid opp s).2 = [] := by
  unfold handleNewOpportunity
  split
  · rfl
  · split
    · exact oppEvents_openPositionPair cfg o now pid lid sid opp s
    · rfl

/-- C9: a comparison of two ticks yields a buy/sell direction exactly when one
venue's ask is strictly below the other venue's bid; in that case the buy
price is strictly below the sell price, so the computed spread
`(sell - buy) / buy * 100` is strictly positive, and every opportunity record
the comparison emits carries exactly that spread; when neither side strictly
crosses, the comparison emits nothing at all — no opportunity (not even a
zero-value one) and no state change. -/
theorem c9_opportunity_iff_crossing (p1 p2 : TickerPrice)
    (h1 : 0 < p1.ask) (h2 : 0 < p2.ask) :
    ((detectDirection p1 p2).isSome = true ↔ (p1.ask < p2.bid ∨ p2.ask < p1.bid)) ∧
    (∀ d, detectDirection p1 p2 = some d →
      d.buyPrice < d.sellPrice ∧ 0 < (d.sellPrice - d.buyPrice) / d.buyPrice * 100) ∧
    (∀ (cfg : Config) (o : OpenOracle) (co : CloseOracle) (now : ℚ) (pid lid sid : ℕ)
      (symbol : String) (s : ExecState),
      ∀ oppEv ∈ oppEvents (checkArbitrage cfg o co now pid lid sid p1 p2 symbol s).2,
        oppEv.spreadPercent = (oppEv.sellPrice - oppEv.buyPrice) / oppEv.buyPrice * 100 ∧
        0 < oppEv.spreadPercent) ∧
    (detectDirection p1 p2 = none →
      ∀ (cfg : Config) (o : OpenOracle) (co : CloseOracle) (now : ℚ) (pid lid sid : ℕ)
        (symbol : String) (s : ExecState),
        checkArbitrage cfg o co now pid lid sid p1 p2 symbol s = (s, [])) := by
  have hdir : ∀ d, detectDirection p1 p2 = some d →
      d.buyPrice < d.sellPrice ∧ 0 < d.buyPrice := by
    intro d hd
    unfold detectDirection at hd
    by_cases hc1 : p1.ask < p2.bid
    · rw [if_pos hc1] at hd
      cases hd
      exact ⟨hc1, h1⟩
    · rw [if_neg hc1] at hd
      by_cases hc2 : p2.ask < p1.bid
      · rw [if_pos hc2] at hd
        cases hd
        exact ⟨hc2, h2⟩
      · rw [if_neg hc2] at hd
        cases hd
  have hpos : ∀ d, detectDirection p1 p2 = some d →
      d.buyPrice < d.sellPrice ∧ 0 < (d.sellPrice - d.buyPrice) / d.buyPrice * 100 := by
    intro d hd
    obtain ⟨hlt, hb⟩ := hdir d hd
    refine ⟨hlt, ?_⟩
    have : 0 < (d.sellPrice - d.buyPrice) / d.buyPrice := div_pos (by linarith) hb
    linarith
  refine ⟨?_, hpos, ?_, ?_⟩
  · constructor
    · intro hs
      unfold detectDirection at hs
      by_cases hc1 : p1.ask < p2.bid
      · exact Or.inl hc1
      · rw [if_neg hc1] at hs
        by_cases hc2 : p2.ask < p1.bid
        · exact Or.inr hc2
        · rw [if_neg hc2] at hs
          simp at hs
    · intro hc
      unfold detectDirection
      rcases hc with hc1 | hc2
      · rw [if_pos hc1]
        rfl
      · by_cases hc1 : p1.ask < p2.bid
        · rw [if_pos hc1]
          rfl
        · rw [if_neg hc1, if_pos hc2]
          rfl
  · intro cfg o co now pid lid sid symbol s oppEv hmem
    unfold checkArbitrage at hmem
    cases hd : detectDirection p1 p2 with
    | none =>
      rw [hd] at hmem
      simp [oppEvents] at hmem
    | some d =>
      rw [hd] at hmem
      dsimp only at hmem
      by_cases hsp : (d.sellPrice - d.buyPrice) / d.buyPrice * 100 < cfg.minSpreadPercent
      · rw [if_pos hsp] at hmem
        simp [oppEvents] at hmem
      · rw [if_neg hsp] at hmem
        have hopp : oppEv = mkOpportunity cfg symbol d := by
          have hrest := oppEvents_handleNewOpportunity cfg o now pid lid sid
            (mkOpportunity cfg symbol d)
            (updatePositionSpread cfg co now symbol d.buyPrice d.sellPrice s)
          by_cases he : cfg.enabled = true
          · rw [if_pos he] at hmem
            simp only [oppEvents] at hmem hrest
            simp [hrest] at hmem
            exact hmem
          · rw [if_neg he] at hmem
            simp [oppEvents] at hmem
            exact hmem
        subst hopp
        refine ⟨rfl, ?_⟩
        show 0 < (d.sellPrice - d.buyPrice) / d.buyPrice * 100
        exact (hpos d hd).2
  · intro hnone cfg o co now pid lid sid symbol s
    unfold checkArbitrage
    rw [hnone]

/-- Witness for C9 at concrete crossing ticks. -/
theorem c9_opportunity_iff_crossing_witness :
    let t1 : TickerPrice := ⟨"BTCUSDT", 99, 100, none, none, Exchange.binance⟩
    let t2 : TickerPrice := ⟨"BTCUSDT", 102, 103, none, none, Exchange.mexc⟩
    ((detectDirection t1 t2).isSome = true ↔ (t1.ask < t2.bid ∨ t2.ask < t1.bid)) ∧
    (∀ d, detectDirection t1 t2 = some d →
      d.buyPrice < d.sellPrice ∧ 0 < (d.sellPrice - d.buyPrice) / d.buyPrice * 100) ∧
    (∀ (cfg : Config) (o : OpenOracle) (co : CloseOracle) (now : ℚ) (pid lid sid : ℕ)
      (symbol : String) (s : ExecState),
      ∀ oppEv ∈ oppEvents (checkArbitrage cfg o co now pid lid sid t1 t2 symbol s).2,
        oppEv.spreadPercent = (oppEv.sellPrice - oppEv.buyPrice) / oppEv.buyPrice * 100 ∧
        0 < oppEv.spreadPercent) ∧
    (detectDirection t1 t2 = none →
      ∀ (cfg : Config) (o : OpenOracle) (co : CloseOracle) (now : ℚ) (pid lid sid : ℕ)
        (symbol : String) (s : ExecState),
        checkArbitrage cfg o co now pid lid sid t1 t2 symbol s = (s, [])) :=
  c9_opportunity_iff_crossing _ _ (by norm_num) (by norm_num)

/-! ## Claim C6 -/

/-- C6 (amended): on every tick that yields a directional crossing, the
current buy/sell price pair is propagated to the ledger via
`updatePositionSpread` — the propagate event leads the trace, the opportunity
handling (if any) runs on the already-propagated state, and when the spread is
below the configured minimum the tick's entire effect is exactly that
propagation, so live-spread updates of open positions happen on below-minimum
ticks too.  (On a tick with no crossing the source returns before propagating:
see the counterexample against the claim's "every incoming price tick".) -/
theorem c6_propagation_before_spread_gate (cfg : Config) (o : OpenOracle) (co : CloseOracle)
    (now : ℚ) (pid lid sid : ℕ) (p1 p2 : TickerPrice) (symbol : String) (s : ExecState)
    (d : TradeDirection) (hd : detectDirection p1 p2 = some d) :
    (∃ tail, (checkArbitrage cfg o co now pid lid sid p1 p2 symbol s).2 =
      Event.propagate d.buyPrice d.sellPrice :: tail) ∧
    ((d.sellPrice - d.buyPrice) / d.buyPrice * 100 < cfg.minSpreadPercent →
      checkArbitrage cfg o co now pid lid sid p1 p2 symbol s =
        (updatePositionSpread cfg co now symbol d.buyPrice d.sellPrice s,
         [Event.propagate d.buyPrice d.sellPrice])) ∧
    (¬ (d.sellPrice - d.buyPrice) / d.buyPrice * 100 < cfg.minSpreadPercent →
      cfg.enabled = true →
      (checkArbitrage cfg o co now pid lid sid p1 p2 symbol s).1 =
        (handleNewOpportunity cfg o now pid lid sid (mkOpportunity cfg symbol d)
          (updatePositionSpread cfg co now symbol d.buyPrice d.sellPrice s)).1) := by
  unfold checkArbitrage
  rw [hd]
  dsimp only
  refine ⟨?_, ?_, ?_⟩
  · by_cases hsp : (d.sellPrice - d.buyPrice) / d.buyPrice * 100 < cfg.minSpreadPercent
    · rw [if_pos hsp]
      exact ⟨[], rfl⟩
    · rw [if_neg hsp]
      by_cases he : cfg.enabled = true
      · rw [if_pos he]
        exact ⟨_, rfl⟩
      · rw [if_neg he]
        exact ⟨_, rfl⟩
  · intro hsp
    rw [if_pos hsp]
  · intro hsp he
    rw [if_neg hsp, if_pos he]

/-- Witness for C6 at a crossing tick whose spread (1%) is below a configured
2% minimum: the result is exactly the ledger propagation. -/
theorem c6_propagation_before_spread_gate_witness :
    let cfg : Config := ⟨true, true, 100, 3, 60, 1, 1/10, false, 0, 0, 0, 2, 1000⟩
    let t1 : TickerPrice := ⟨"BTCUSDT", 99, 100, none, none, Exchange.binance⟩
    let t2 : TickerPrice := ⟨"BTCUSDT", 101, 102, none, none, Exchange.mexc⟩
    let d : TradeDirection := ⟨Exchange.binance, Exchange.mexc, 100, 101, none, none⟩
    (∃ tail, (checkArbitrage cfg okOracle okCloseOracle 0 7 8 9 t1 t2 "BTCUSDT"
        (initialState cfg)).2 = Event.propagate d.buyPrice d.sellPrice :: tail) ∧
    ((d.sellPrice - d.buyPrice) / d.buyPrice * 100 < cfg.minSpreadPercent →
      checkArbitrage cfg okOracle okCloseOracle 0 7 8 9 t1 t2 "BTCUSDT" (initialState cfg) =
        (updatePositionSpread cfg okCloseOracle 0 "BTCUSDT" d.buyPrice d.sellPrice
          (initialState cfg),
         [Event.propagate d.buyPrice d.sellPrice])) ∧
    (¬ (d.sellPrice - d.buyPrice) / d.buyPrice * 100 < cfg.minSpreadPercent →
      cfg.enabled = true →
      (checkArbitrage cfg okOracle okCloseOracle 0 7 8 9 t1 t2 "BTCUSDT"
        (initialState cfg)).1 =
        (handleNewOpportunity cfg okOracle 0 7 8 9 (mkOpportunity cfg "BTCUSDT" d)
          (updatePositionSpread cfg okCloseOracle 0 "BTCUSDT" d.buyPrice d.sellPrice
            (initialState cfg))).1) :=
  c6_propagation_before_spread_gate _ _ _ 0 7 8 9 _ _ _ _ _
    (by norm_num [detectDirection])

/-- C6 counterexample to "on every incoming price tick": a tick pair with no
directional crossing (each venue's ask is above the other's bid) while an
open pair for the symbol sits in the ledger.  `checkArbitrage` returns the
state unchanged with an empty event trace: no buy/sell price pair is
propagated to the ledger on this tick at all (the open pair's live-spread
fields stay stale). -/
theorem c6_no_crossing_counterexample :
    let cfg : Config := ⟨true, true, 100, 3, 60, 1, 1/10, false, 0, 0, 0, 2, 1000⟩
    let s0 : ExecState :=
      { initialState cfg with openPositions := [samplePair 1 "BTCUSDT" 100 110 none] }
    let t1 : TickerPrice := ⟨"BTCUSDT", 99, 100, none, none, Exchange.binance⟩
    let t2 : TickerPrice := ⟨"BTCUSDT", 99, 100, none, none, Exchange.mexc⟩
    checkArbitrage cfg okOracle okCloseOracle 0 7 8 9 t1 t2 "BTCUSDT" s0 = (s0, []) := by
  intro cfg s0 t1 t2
  unfold checkArbitrage
  rw [show detectDirection t1 t2 = none by norm_num [detectDirection, t1, t2]]

/-- C8 counterexample to the claim as stated: with the convergence-close
feature disabled in the configuration (`closeOnSpreadConvergence = false`) a
live update whose divergence (0%) is far below the threshold (0.1%) refreshes
the open pair but does NOT close it: the pair stays in the open map and the
closed history stays empty. -/
theorem c8_flag_off_counterexample :
    let cfg : Config := ⟨true, true, 100, 3, 60, 1, 1/10, false, 0, 0, 0, 2, 1000⟩
    let pair := samplePair 1 "BTCUSDT" 100 110 (some 1000)
    let s0 : ExecState := { initialState cfg with openPositions := [pair] }
    let s1 := updatePositionSpread cfg okCloseOracle 10 "BTCUSDT" 100 100 s0
    (|(100 : ℚ) - 100| / min 100 100 * 100 ≤ cfg.priceConvergencePercent) ∧
      (findPair s1.openPositions 1).isSome = true ∧
      s1.closedPositions = [] := by
  intro cfg pair s0 s1
  have hfind : findPair s0.openPositions 1 = some pair := by
    simp [s0, initialState, findPair, pair, samplePair]
  have hstep := @updateStep_refresh cfg okCloseOracle 10 "BTCUSDT" 100 100 s0 1 pair
    hfind ⟨rfl, rfl⟩ (by simp [cfg])
  have hs1 : s1 = { s0 with
      openPositions := replacePair s0.openPositions 1 (refreshPair pair 100 100) } := by
    show updatePositionSpread cfg okCloseOracle 10 "BTCUSDT" 100 100 s0 = _
    unfold updatePositionSpread
    rw [show s0.openPositions.map (fun p => p.id) = [1] by
      simp [s0, initialState, pair, samplePair]]
    rw [List.foldl_cons]
    show List.foldl _ (updateStep cfg okCloseOracle 10 "BTCUSDT" 100 100 s0 1) [] = _
    rw [hstep]
    rfl
  refine ⟨by norm_num [cfg], ?_, ?_⟩
  · rw [hs1]
    have : findPair (replacePair s0.openPositions 1 (refreshPair pair 100 100)) 1 =
        some (refreshPair pair 100 100) :=
      findPair_replace_self hfind (by rw [refreshPair_id]; rfl)
    show (findPair (replacePair s0.openPositions 1 (refreshPair pair 100 100)) 1).isSome = true
    rw [this]
    rfl
  · rw [hs1]
    rfl
